import Mathlib

/-!
# Mopeka tank sensor decoder (`src/mopeka.c`)

A shallow embedding of the Mopeka advertisement handler of dbus-ble-sensors.

Conventions of the embedding

* `uint8_t` values are `Fin 256`; `int` values are `Int` (signed overflow is
  undefined in C and is not modelled); the `uint64_t` raw value is a `Nat`
  reduced modulo `2 ^ 64` where the source computes with it.
* `float` values are exact rationals.  Rounding of the binary formats is not
  modelled; the special values a division by zero produces are (`FVal`).
* The item tree behind `struct VeItem *root` is seen through what the code
  reads from it (`Root`) and through the ordered list of writes and calls
  the code performs on it.
-/

namespace Mopeka

/-! ## Constants (lines 15-34) -/

def HW_ID_PRO : Int := 3
def HW_ID_PRO_200 : Int := 4
def HW_ID_PRO_H2O : Int := 5
def HW_ID_PRO_PLUS_BLE : Int := 8
def HW_ID_PRO_PLUS_CELL : Int := 9
def HW_ID_TOPDOWN_BLE : Int := 10
def HW_ID_TOPDOWN_CELL : Int := 11
def HW_ID_UNIVERSAL : Int := 12

def FLUID_TYPE_FRESH_WATER : Int := 1
def FLUID_TYPE_WASTE_WATER : Int := 2
def FLUID_TYPE_LIVE_WELL : Int := 3
def FLUID_TYPE_OIL : Int := 4
def FLUID_TYPE_BLACK_WATER : Int := 5
def FLUID_TYPE_GASOLINE : Int := 6
def FLUID_TYPE_DIESEL : Int := 7
def FLUID_TYPE_LPG : Int := 8
def FLUID_TYPE_LNG : Int := 9
def FLUID_TYPE_HYDRAULIC_OIL : Int := 10
def FLUID_TYPE_RAW_WATER : Int := 11

/-! ## Frames and addresses -/

/-- The Bluetooth device address `bdaddr_t`: six bytes `b[0] .. b[5]`. -/
structure bdaddr_t where
  b : Fin 6 → Fin 256

/-- The byte `buf[i]` of a payload, as the `int` the source promotes it to.
Indices past the end of the list read as 0; the handler reads only indices
below 10 and only after it has checked `len == 10`. -/
def byte_at (buf : List (Fin 256)) (i : Nat) : Int :=
  ((buf.getD i 0).val : Int)

/-! ## String formatting used by the handler -/

/-- One hexadecimal digit, upper case for `%X` and lower case for `%x`. -/
def hex_digit (upper : Bool) (n : Nat) : Char :=
  if n < 10 then Char.ofNat (48 + n)
  else if upper then Char.ofNat (55 + n) else Char.ofNat (87 + n)

/-- The conversions `%02x` (`upper = false`) and `%02X` (`upper = true`) of a byte. -/
def fmt_02x (upper : Bool) (v : Nat) : String :=
  String.mk [hex_digit upper (v / 16 % 16), hex_digit upper (v % 16)]

/-- What `snprintf(dst, size, ...)` leaves in `dst` when the formatted text is
`s`: at most `size - 1` characters, then the terminator. -/
def snprintf (size : Nat) (s : String) : String :=
  String.mk (s.data.take (size - 1))

/-! ## The handler `mopeka_handle_mfg` (lines 363-432) -/

/-- The collaborators of the handler that live outside `mopeka.c`. -/
structure Env where
  /-- Whether `ble_dbus_create(dev, &mopeka_sensor, hwid)` returns a root. -/
  create_ok : String → Int → Bool
  /-- The result of `ble_dbus_is_enabled(root)` for the device `dev`. -/
  enabled : String → Bool

/-- The calls the handler makes on the item tree, in program order. -/
inductive Call
  | ble_dbus_create (dev : String) (hwid : Int)
  | ble_dbus_set_name (name : String)
  | ble_dbus_set_regs (buf : List (Fin 256)) (len : Int)
  | mopeka_update_level
  | ble_dbus_update
  deriving DecidableEq, Repr

/-- The `return` statement at which the handler leaves. -/
inductive Exit
  /-- Line 373, `len != 10`. -/
  | bad_len
  /-- Line 378, the identity bytes differ from the address. -/
  | uid_mismatch
  /-- Line 408, the `default` arm of the switch on `hwid`. -/
  | unknown_hwid
  /-- Line 417, `ble_dbus_create` returned no root. -/
  | create_failed
  /-- Line 424, the device is not enabled. -/
  | disabled
  /-- Line 431, the frame was decoded. -/
  | done
  deriving DecidableEq, Repr

/-- The value returned at each `return` statement. -/
def Exit.code : Exit → Int
  | .bad_len => -1
  | .uid_mismatch => -1
  | .unknown_hwid => -1
  | .create_failed => -1
  | .disabled => 0
  | .done => 0

/-- The result of one run of the handler. -/
structure Handled where
  exit : Exit
  calls : List Call
  deriving DecidableEq, Repr

/-- The return value of the run. -/
def Handled.ret (h : Handled) : Int := h.exit.code

/-- The switch on `hwid` of lines 382-409: the type string, or `none` in the
`default` arm. -/
def hwid_type (hwid : Int) : Option String :=
  if hwid = HW_ID_PRO then some "Pro"
  else if hwid = HW_ID_PRO_H2O then some "Pro H2O"
  else if hwid = HW_ID_PRO_200 then some "Pro 200"
  else if hwid = HW_ID_PRO_PLUS_BLE then some "Pro+ BLE"
  else if hwid = HW_ID_PRO_PLUS_CELL then some "Pro+ Cell"
  else if hwid = HW_ID_TOPDOWN_BLE then some "Topdown BLE"
  else if hwid = HW_ID_TOPDOWN_CELL then some "Topdown Cell"
  else if hwid = HW_ID_UNIVERSAL then some "Universal"
  else none

/-- The handler `mopeka_handle_mfg(addr, buf, len)`. -/
def mopeka_handle_mfg (env : Env) (addr : bdaddr_t) (buf : List (Fin 256)) (len : Int) :
    Handled :=
  let uid : Nat → Int := fun i => byte_at buf (5 + i)
  if len ≠ 10 then ⟨.bad_len, []⟩
  else if uid 0 ≠ ((addr.b 2).val : Int) ∨
      uid 1 ≠ ((addr.b 1).val : Int) ∨
      uid 2 ≠ ((addr.b 0).val : Int) then ⟨.uid_mismatch, []⟩
  else
    let hwid : Int := byte_at buf 0
    match hwid_type hwid with
    | none => ⟨.unknown_hwid, []⟩
    | some type =>
      let dev := snprintf 16
        (fmt_02x false (addr.b 5).val ++ fmt_02x false (addr.b 4).val ++
         fmt_02x false (addr.b 3).val ++ fmt_02x false (addr.b 2).val ++
         fmt_02x false (addr.b 1).val ++ fmt_02x false (addr.b 0).val)
      if ¬ env.create_ok dev hwid then ⟨.create_failed, [.ble_dbus_create dev hwid]⟩
      else
        let name := snprintf 24
          ("Mopeka " ++ type ++ " " ++ fmt_02x true (uid 0).toNat ++ ":" ++
           fmt_02x true (uid 1).toNat ++ ":" ++ fmt_02x true (uid 2).toNat)
        if ¬ env.enabled dev then
          ⟨.disabled, [.ble_dbus_create dev hwid, .ble_dbus_set_name name]⟩
        else
          ⟨.done, [.ble_dbus_create dev hwid, .ble_dbus_set_name name,
                   .ble_dbus_set_regs buf len, .mopeka_update_level, .ble_dbus_update]⟩

/-! ## What the code reads from the item tree -/

/-- The view of `struct VeItem *root` taken by the code of `mopeka.c`. -/
structure Root where
  /-- The result of `veItemValueInt(root, name)`. -/
  value_int : String → Int
  /-- The local value of the item `Capacity` after `veVariantToFloat`, or
  `none` when `veItemByUid(root, "Capacity")` finds no item. -/
  capacity : Option ℚ

/-! ## Calibration (lines 125-230) -/

def mopeka_coefs_h2o : List ℚ := [0.600592, 0.003124, -0.00001368]

def mopeka_coefs_lpg : List ℚ := [0.573045, -0.002822, -0.00000535]

def mopeka_coefs_gasoline : List ℚ := [0.7373417462, -0.001978229885, 0.00000202162]

def mopeka_coefs_butane : List ℚ := [0.03615, 0.000815]

def mopeka_coefs_air : List ℚ := [0.153096, 0.000327, -0.000000294]

/-- The function `mopeka_scale_butane(root, temp)`. -/
def mopeka_scale_butane (root : Root) (temp : Int) : ℚ :=
  let r : ℚ := (root.value_int "ButaneRatio" : ℚ) / 100.0
  mopeka_coefs_butane.getD 0 0 * r + mopeka_coefs_butane.getD 1 0 * r * (temp : ℚ)

/-- Lines 173-176 of `mopeka_xlate_level`: the value of `rv` after the test
of the extension register. -/
def rv_effective (tank_level_ext : Int) (rv : Nat) : Nat :=
  if tank_level_ext ≠ 0 then (16384 + rv * 4) % 2 ^ 64 else rv

/-- Lines 178-225 of `mopeka_xlate_level`: the two nested switches and the
polynomial; `none` where the source returns -1. -/
def mopeka_scale (root : Root) (hwid fluid_type temp : Int) : Option ℚ :=
  let sel : Option (ℚ × List ℚ) :=
    if hwid = HW_ID_PRO then
      some (mopeka_scale_butane root temp, mopeka_coefs_lpg)
    else if hwid = HW_ID_PRO_H2O then
      some (0, mopeka_coefs_h2o)
    else if hwid = HW_ID_PRO_PLUS_BLE ∨ hwid = HW_ID_PRO_PLUS_CELL ∨
        hwid = HW_ID_UNIVERSAL then
      if fluid_type = FLUID_TYPE_FRESH_WATER ∨ fluid_type = FLUID_TYPE_WASTE_WATER ∨
          fluid_type = FLUID_TYPE_LIVE_WELL ∨ fluid_type = FLUID_TYPE_BLACK_WATER ∨
          fluid_type = FLUID_TYPE_RAW_WATER then
        some (0, mopeka_coefs_h2o)
      else if fluid_type = FLUID_TYPE_LPG then
        some (mopeka_scale_butane root temp, mopeka_coefs_lpg)
      else if fluid_type = FLUID_TYPE_GASOLINE ∨ fluid_type = FLUID_TYPE_DIESEL then
        some (0, mopeka_coefs_gasoline)
      else
        none
    else if hwid = HW_ID_PRO_200 ∨ hwid = HW_ID_TOPDOWN_BLE ∨
        hwid = HW_ID_TOPDOWN_CELL then
      some (0, mopeka_coefs_air)
    else
      none
  match sel with
  | none => none
  | some (scale, coefs) =>
    some (scale + (coefs.getD 0 0 + coefs.getD 1 0 * (temp : ℚ) +
      coefs.getD 2 0 * (temp : ℚ) * (temp : ℚ)))

/-- The translator `mopeka_xlate_level(root, val, rv)`: the float stored in
`*val` when it returns 0, `none` when it returns -1. -/
def mopeka_xlate_level (root : Root) (rv : Nat) : Option ℚ :=
  let fluid_type := root.value_int "FluidType"
  let hwid := root.value_int "HardwareID"
  let temp := root.value_int "Temperature"
  let temp := temp + 40
  let tank_level_ext := root.value_int "TankLevelExtension"
  let rv := rv_effective tank_level_ext rv
  match mopeka_scale root hwid fluid_type temp with
  | none => none
  | some scale =>
    let level : ℚ := (rv : ℚ) * scale
    some (level / 10)

/-! ## Float values with the results of a division by zero -/

/-- A `float`: a finite value, an infinity or a NaN. -/
inductive FVal
  | fin (q : ℚ)
  | pinf
  | ninf
  | nan
  deriving DecidableEq

/-- The quotient `a / b` of two finite floats (the zero divisor here is
always the positive zero an `int` converts to). -/
def FVal.div (a b : ℚ) : FVal :=
  if b = 0 then
    if 0 < a then .pinf else if a < 0 then .ninf else .nan
  else .fin (a / b)

/-- The comparison `x < c`; false when `x` is a NaN. -/
def FVal.lt (x : FVal) (c : ℚ) : Bool :=
  match x with
  | .fin q => decide (q < c)
  | .ninf => true
  | _ => false

/-- The comparison `x > c`; false when `x` is a NaN. -/
def FVal.gt (x : FVal) (c : ℚ) : Bool :=
  match x with
  | .fin q => decide (c < q)
  | .pinf => true
  | _ => false

/-- The product of `x` and a finite float `c`. -/
def FVal.mul (x : FVal) (c : ℚ) : FVal :=
  match x with
  | .fin q => .fin (q * c)
  | .pinf => if 0 < c then .pinf else if c < 0 then .ninf else .nan
  | .ninf => if 0 < c then .ninf else if c < 0 then .pinf else .nan
  | .nan => .nan

/-- Rounding to the nearest integer, ties to the even one: the default
rounding mode, which `lrintf` follows. -/
def round_half_even (q : ℚ) : Int :=
  let f : Int := ⌊q⌋
  let r : ℚ := q - (f : ℚ)
  if r < 1 / 2 then f
  else if 1 / 2 < r then f + 1
  else if f % 2 = 0 then f else f + 1

/-- The library function `lrintf`; `none` stands for the unspecified result
on an argument that is not finite. -/
def lrintf (x : FVal) : Option Int :=
  match x with
  | .fin q => some (round_half_even q)
  | _ => none

/-! ## The level calculation `mopeka_update_level` (lines 305-361) -/

/-- The writes of `mopeka_update_level` to the item tree, in program order. -/
inductive Write
  /-- The call `veItemInvalidate(veItemByUid(root, name))`. -/
  | veItemInvalidate (name : String)
  /-- The call `ble_dbus_set_int(root, name, value)`; `none` is an unspecified value. -/
  | ble_dbus_set_int (name : String) (value : Option Int)
  /-- The call `veItemOwnerSet(veItemByUid(root, name), veVariantFloat(&v, value))`. -/
  | veItemOwnerSet (name : String) (value : FVal)
  deriving DecidableEq

/-- The three statements of lines 332-334 and of lines 341-343. -/
def fault_writes : List Write :=
  [.veItemInvalidate "Level", .veItemInvalidate "Remaining",
   .ble_dbus_set_int "Status" (some 4)]

/-- The value of `level` at line 350, or `none` when one of the two fault
branches returned before (lines 330-348). -/
def level_quotient (hwid height empty full : Int) : Option FVal :=
  if hwid = HW_ID_TOPDOWN_BLE ∨ hwid = HW_ID_TOPDOWN_CELL ∨ hwid = HW_ID_PRO_200 then
    if empty < full then none
    else some (FVal.div ((empty - full - height : Int) : ℚ) ((empty - full : Int) : ℚ))
  else
    if empty ≥ full then none
    else some (FVal.div ((height - empty : Int) : ℚ) ((full - empty : Int) : ℚ))

/-- Lines 350-353: the two clamping statements. -/
def clamp_level (level : FVal) : FVal :=
  let level := if level.lt 0 then .fin 0 else level
  let level := if level.gt 1 then .fin 1 else level
  level

/-- The function `mopeka_update_level(root)`. -/
def mopeka_update_level (root : Root) : List Write :=
  let hwid := root.value_int "HardwareID"
  match root.capacity with
  | none => []
  | some capacity =>
    let height := root.value_int "RawValue"
    let empty := root.value_int "RawValueEmpty"
    let full := root.value_int "RawValueFull"
    match level_quotient hwid height empty full with
    | none => fault_writes
    | some level =>
      let level := clamp_level level
      let remain := level.mul capacity
      [.ble_dbus_set_int "Level" (lrintf (level.mul 100)),
       .veItemOwnerSet "Remaining" remain]

/-! ## The calibration as the specification words it -/

/-- The four coefficient sets a hardware id and a fluid type can select. -/
inductive CoefSet
  | lpg
  | h2o
  | gasoline
  | air
  deriving DecidableEq

/-- The decimal constants `(c0, c1, c2)` of a coefficient set. -/
def CoefSet.coefs : CoefSet → ℚ × ℚ × ℚ
  | .lpg => (573045 / 1000000, -2822 / 1000000, -535 / 100000000)
  | .h2o => (600592 / 1000000, 3124 / 1000000, -1368 / 100000000)
  | .gasoline => (7373417462 / 10000000000, -1978229885 / 1000000000000,
      202162 / 100000000000)
  | .air => (153096 / 1000000, 327 / 1000000, -294 / 1000000000)

/-- The coefficient set the specification assigns to a hardware id and a
fluid type: LPG for id 3 and for ids 8, 9, 12 with fluid LPG; H2O for id 5 and
for ids 8, 9, 12 with a water fluid; gasoline for ids 8, 9, 12 with gasoline
or diesel; air for ids 4, 10, 11. -/
def spec_coef_set (hwid fluid_type : Int) : Option CoefSet :=
  if hwid = 3 then some .lpg
  else if hwid = 5 then some .h2o
  else if hwid ∈ [8, 9, 12] then
    if fluid_type = 8 then some .lpg
    else if fluid_type ∈ [1, 2, 3, 5, 11] then some .h2o
    else if fluid_type ∈ [6, 7] then some .gasoline
    else none
  else if hwid ∈ [4, 10, 11] then some .air
  else none

/-- The distance of the specification:
`rv_eff * (blend + c0 + c1*T + c2*T^2) / 10`, with the butane blend
`0.03615*r + 0.000815*r*T`, `r = ratio/100`, for the LPG set only. -/
def spec_distance (set : CoefSet) (rv_eff T ratio : ℚ) : ℚ :=
  let r : ℚ := ratio / 100
  let blend : ℚ := if set = .lpg then 3615 / 100000 * r + 815 / 1000000 * r * T else 0
  rv_eff * (blend + set.coefs.1 + set.coefs.2.1 * T + set.coefs.2.2 * T ^ 2) / 10

/-- The fill fraction of the specification: the quotient
`(distance - empty) / (full - empty)` for bottom-up hardware and
`(empty - full - distance) / (empty - full)` for top-down hardware (ids 4, 10,
11), limited to [0,1]. -/
def spec_fraction (hwid distance empty full : Int) : ℚ :=
  let x : ℚ :=
    if hwid ∈ [4, 10, 11] then
      ((empty : ℚ) - (full : ℚ) - (distance : ℚ)) / ((empty : ℚ) - (full : ℚ))
    else
      ((distance : ℚ) - (empty : ℚ)) / ((full : ℚ) - (empty : ℚ))
  max 0 (min 1 x)

/-- A root whose integer items are given by a list of pairs, every other
item reading 0. -/
def root_of (items : List (String × Int)) (capacity : Option ℚ) : Root :=
  ⟨fun name => ((items.find? (fun p => p.1 == name)).map Prod.snd).getD 0, capacity⟩

/-! ## Sample data -/

/-- An address whose low three bytes are `c3 b2 a1`. -/
def sample_addr : bdaddr_t :=
  ⟨fun i => [0xc3, 0xb2, 0xa1, 0x44, 0x55, 0x66].getD i.val 0⟩

/-- A ten byte frame from `sample_addr` whose first byte is `b0`. -/
def sample_frame (b0 : Fin 256) : List (Fin 256) :=
  [b0, 0x50, 65, 0xf4, 0x01, 0xa1, 0xb2, 0xc3, 0, 0]

/-- Collaborators that create every device and report it enabled. -/
def sample_env : Env := ⟨fun _ _ => true, fun _ => true⟩

/-- A bottom-up water sensor (id 5) at `Temperature = -15`, so `T = 25`. -/
def sample_root_h2o : Root :=
  root_of [("HardwareID", 5), ("Temperature", -15)] none

/-- A universal sensor (id 12) set to LPG with a butane ratio of 50 and the
extension register set. -/
def sample_root_lpg : Root :=
  root_of [("HardwareID", 12), ("FluidType", 8), ("Temperature", -15), ("ButaneRatio", 50),
    ("TankLevelExtension", 1)] none

/-- A top-down Pro-200 (id 4) whose two endpoints are both 20 and whose
distance reads 0. -/
def sample_root_equal_zero : Root :=
  root_of [("HardwareID", 4), ("RawValue", 0), ("RawValueEmpty", 20), ("RawValueFull", 20)]
    (some (2 / 10))

/-- A top-down Pro-200 (id 4) whose two endpoints are both 20 and whose
distance reads 5. -/
def sample_root_equal : Root :=
  root_of [("HardwareID", 4), ("RawValue", 5), ("RawValueEmpty", 20), ("RawValueFull", 20)]
    (some (2 / 10))

/-- A bottom-up Pro (id 3) with `empty = 20`, `full = 10` and no `Capacity` item. -/
def sample_root_no_capacity : Root :=
  root_of [("HardwareID", 3), ("RawValue", 5), ("RawValueEmpty", 20), ("RawValueFull", 10)] none

/-- A top-down sensor (id 10) with both endpoints and the distance at 0. -/
def sample_root_all_zero : Root :=
  root_of [("HardwareID", 10)] (some (2 / 10))

/-- A top-down Pro-200 (id 4) with `empty = 20`, `full = 0` and distance 5. -/
def sample_root_top_down : Root :=
  root_of [("HardwareID", 4), ("RawValue", 5), ("RawValueEmpty", 20), ("RawValueFull", 0)]
    (some (2 / 10))

/-- A top-down sensor (id 11) with `empty = 100`, `full = 10` and distance 45. -/
def sample_root_top_down_cell : Root :=
  root_of [("HardwareID", 11), ("RawValue", 45), ("RawValueEmpty", 100), ("RawValueFull", 10)]
    (some 1)

/-- A bottom-up Pro (id 3) with the default endpoints 0 and 20 and distance 5. -/
def sample_root_bottom_up : Root :=
  root_of [("HardwareID", 3), ("RawValue", 5), ("RawValueFull", 20)] (some (2 / 10))

/-! ## Further definitions for the level calculation -/

/-- The root `root` with the integer read for the item `name` replaced by `v`. -/
def Root.set_int (root : Root) (name : String) (v : Int) : Root :=
  ⟨fun n => if n = name then v else root.value_int n, root.capacity⟩

/-- Rounding to the nearest integer with ties away from zero, as the
specification words the percentage. -/
def round_half_away (x : ℚ) : Int :=
  if 0 ≤ x then ⌊x + 1 / 2⌋ else ⌈x - 1 / 2⌉

/-- A top-down sensor (id 11) whose two endpoints are both 50 and whose
distance reads 0. -/
def sample_root_span_zero : Root :=
  root_of [("HardwareID", 11), ("RawValue", 0), ("RawValueEmpty", 50), ("RawValueFull", 50)]
    (some (2 / 10))

/-- A bottom-up Pro (id 3) with `empty = 0`, `full = 8` and distance 1. -/
def sample_root_eighth : Root :=
  root_of [("HardwareID", 3), ("RawValue", 1), ("RawValueFull", 8)] (some (2 / 10))

/-! ## The register table `mopeka_adv` (lines 232-303) -/

/-- The three basic types the table uses. -/
inductive VeDataBasicType
  | VE_UN8
  | VE_UN16
  | VE_SN8
  deriving DecidableEq

/-- A field descriptor `struct reg_info` with the members the table sets.  A
member an entry leaves out is 0, and `none` for the translator. -/
structure reg_info where
  type : VeDataBasicType
  offset : Nat
  shift : Nat
  mask : Nat
  scale : ℚ
  bias : ℚ
  xlate : Option (Root → Nat → Option ℚ)
  name : String
  format : String

/-- The table `mopeka_adv`. -/
def mopeka_adv : List reg_info :=
  [⟨.VE_UN8, 0, 0, 0x7f, 0, 0, none, "HardwareID", "veUnitNone"⟩,
   ⟨.VE_UN8, 0, 7, 1, 0, 0, none, "TankLevelExtension", "veUnitNone"⟩,
   ⟨.VE_UN8, 1, 0, 0x7f, 32, 0, none, "BatteryVoltage", "veUnitVolt2Dec"⟩,
   ⟨.VE_UN8, 2, 0, 0x7f, 1, -40, none, "Temperature", "veUnitCelsius1Dec"⟩,
   ⟨.VE_UN8, 2, 7, 1, 0, 0, none, "SyncButton", "veUnitNone"⟩,
   ⟨.VE_UN16, 3, 0, 0x3fff, 0, 0, some mopeka_xlate_level, "RawValue", "veUnitcm"⟩,
   ⟨.VE_UN16, 3, 14, 3, 0, 0, none, "Quality", "veUnitNone"⟩,
   ⟨.VE_SN8, 8, 0, 0, 1024, 0, none, "AccelX", "veUnitG2Dec"⟩,
   ⟨.VE_SN8, 9, 0, 0, 1024, 0, none, "AccelY", "veUnitG2Dec"⟩]

/-- The names of the table entries, in table order. -/
def adv_names : List String := mopeka_adv.map reg_info.name

/-- The items `mopeka_xlate_level` reads from the root, `mopeka_scale_butane`
included (lines 147, 162-164 and 173). -/
def xlate_reads : List String :=
  ["FluidType", "HardwareID", "Temperature", "TankLevelExtension", "ButaneRatio"]

/-! ## Item values and their integer reading -/

/-- The values of the items of a root that are read as integers, and the
`Capacity` item. -/
structure Items where
  value : String → ℚ
  capacity : Option ℚ

/-- The conversion of a float to `int` by a C cast, which discards the
fraction: the integer `veItemValueInt` yields for an item holding a float. -/
def float_to_int (x : ℚ) : Int :=
  if 0 ≤ x then ⌊x⌋ else ⌈x⌉

/-- The root as the code of `mopeka.c` reads it, when `veItemValueInt` converts
an item value with `conv`. -/
def Items.root (conv : ℚ → Int) (it : Items) : Root :=
  ⟨fun name => conv (it.value name), it.capacity⟩

/-- The items with the value of `name` replaced by `x`. -/
def Items.set (it : Items) (name : String) (x : ℚ) : Items :=
  ⟨fun n => if n = name then x else it.value n, it.capacity⟩

/-- Items given by a list of pairs, every other item holding 0. -/
def items_of (items : List (String × ℚ)) (capacity : Option ℚ) : Items :=
  ⟨fun name => ((items.find? (fun p => p.1 == name)).map Prod.snd).getD 0, capacity⟩

/-! ## The field decoder -/

/-- Modelled from the spec: step 1 of the field decoder of `ble_dbus_set_regs`
(section 4.2; `ble-dbus.c` is not among the sources).  The integer of the
declared width at the declared offset, low byte first, a signed one
sign-extended to the 64 bits the translator receives. -/
def reg_load (r : reg_info) (buf : List (Fin 256)) : Nat :=
  match r.type with
  | .VE_UN8 => (buf.getD r.offset 0).val
  | .VE_UN16 => (buf.getD r.offset 0).val + 256 * (buf.getD (r.offset + 1) 0).val
  | .VE_SN8 =>
    if (buf.getD r.offset 0).val < 128 then (buf.getD r.offset 0).val
    else 2 ^ 64 - 256 + (buf.getD r.offset 0).val

/-- Modelled from the spec: steps 2 and 3 of the field decoder, the logical
right shift and then the mask; a mask of 0 is a mask that is not declared. -/
def reg_masked (r : reg_info) (buf : List (Fin 256)) : Nat :=
  let v := reg_load r buf / 2 ^ r.shift
  if r.mask ≠ 0 then v &&& r.mask else v

/-- Modelled from the spec: step 4 of the field decoder, the division by a
declared scale and then the addition of the bias, on the signed reading of a
signed field. -/
def reg_scaled (r : reg_info) (v : Nat) : ℚ :=
  let x : ℚ := if r.type = .VE_SN8 ∧ 2 ^ 63 ≤ v then (v : ℚ) - 2 ^ 64 else (v : ℚ)
  let x : ℚ := if r.scale ≠ 0 then x / r.scale else x
  x + r.bias

/-- Modelled from the spec: steps 5 and 6 of the field decoder for one
descriptor.  A translator gets the registers decoded so far and the masked
integer; when it fails, this field alone is not stored. -/
def ble_dbus_set_reg (it : Items) (r : reg_info) (buf : List (Fin 256)) : Items :=
  let v := reg_masked r buf
  match r.xlate with
  | some xlate =>
    match xlate (it.root float_to_int) v with
    | none => it
    | some d => it.set r.name d
  | none => it.set r.name (reg_scaled r v)

/-- Modelled from the spec: the field decoder `ble_dbus_set_regs` of
`ble-dbus.c`, which evaluates the descriptors in table order. -/
def ble_dbus_set_regs (it : Items) (regs : List reg_info) (buf : List (Fin 256)) : Items :=
  regs.foldl (fun acc r => ble_dbus_set_reg acc r buf) it

/-- The settings of the end-to-end example: `empty = 0`, `full = 40`,
capacity 0.2, every other item 0. -/
def sample_settings : Items :=
  items_of [("RawValueEmpty", 0), ("RawValueFull", 40)] (some (2 / 10))

/-- The items after the frame of the end-to-end example (id 5, temperature
byte 65, raw value 500, no extension bit) is decoded over `sample_settings`. -/
def sample_decoded : Items :=
  ble_dbus_set_regs sample_settings mopeka_adv (sample_frame 5)

/-- The registers the translator reads in the end-to-end example. -/
def sample_root_example : Root :=
  root_of [("HardwareID", 5), ("Temperature", 25)] none

/-! ## The level calculation on the item values -/

/-- The call `veItemValueInt(root, name)` on a root whose items hold the
values `it`, when the library converts an item value to `int` with `conv`. -/
def veItemValueInt (conv : ℚ → Int) (it : Items) (name : String) : Int :=
  conv (it.value name)

/-- The function `mopeka_update_level(root)` on the item values themselves
(lines 317-361): `HardwareID`, `RawValue`, `RawValueEmpty` and `RawValueFull`
are read with `veItemValueInt`, `Capacity` is read as a float with
`veItemLocalValue` and `veVariantToFloat`. -/
def mopeka_update_level_items (conv : ℚ → Int) (it : Items) : List Write :=
  let hwid := veItemValueInt conv it "HardwareID"
  match it.capacity with
  | none => []
  | some capacity =>
    let height := veItemValueInt conv it "RawValue"
    let empty := veItemValueInt conv it "RawValueEmpty"
    let full := veItemValueInt conv it "RawValueFull"
    match level_quotient hwid height empty full with
    | none => fault_writes
    | some level =>
      let level := clamp_level level
      let remain := level.mul capacity
      [.ble_dbus_set_int "Level" (lrintf (level.mul 100)),
       .veItemOwnerSet "Remaining" remain]

/-- The items with the value of `Capacity` replaced by `c`. -/
def Items.set_capacity (it : Items) (c : ℚ) : Items :=
  ⟨it.value, some c⟩

/-- A bottom-up Pro (id 3) with `empty = 0`, `full = 20`, distance 10 and a
capacity of 1/2. -/
def sample_items_half : Items :=
  items_of [("HardwareID", 3), ("RawValue", 10), ("RawValueFull", 20)] (some (1 / 2))

end Mopeka

open Mopeka

/-- C1: a call whose `len` is not 10 returns -1 at the length check, whatever
the buffer and the address are, and makes no call on the item tree. -/
theorem handle_mfg_bad_len (env : Env) (addr : bdaddr_t) (buf : List (Fin 256)) (len : Int)
    (h : len ≠ 10) :
    (mopeka_handle_mfg env addr buf len).ret = -1 ∧
    (mopeka_handle_mfg env addr buf len).exit = Exit.bad_len ∧
    (mopeka_handle_mfg env addr buf len).calls = [] := by
  simp [mopeka_handle_mfg, h, Handled.ret, Exit.code]

theorem handle_mfg_bad_len_witness :
    (9 : Int) ≠ 10 ∧
    (mopeka_handle_mfg sample_env sample_addr (sample_frame 3) 9).ret = -1 ∧
    (mopeka_handle_mfg sample_env sample_addr (sample_frame 3) 9).exit = Exit.bad_len ∧
    (mopeka_handle_mfg sample_env sample_addr (sample_frame 3) 9).calls = [] :=
  ⟨by decide, handle_mfg_bad_len sample_env sample_addr (sample_frame 3) 9 (by decide)⟩

/-- C2: on a ten byte payload the handler leaves at the identity check exactly
when bytes 5, 6, 7 differ from `addr.b[2]`, `addr.b[1]`, `addr.b[0]`; leaving
there returns -1 with no call made. -/
theorem handle_mfg_identity_check (env : Env) (addr : bdaddr_t) (buf : List (Fin 256))
    (hlen : buf.length = 10) :
    ((mopeka_handle_mfg env addr buf 10).exit = Exit.uid_mismatch ↔
      (buf.get ⟨5, by omega⟩, buf.get ⟨6, by omega⟩, buf.get ⟨7, by omega⟩) ≠
        (addr.b 2, addr.b 1, addr.b 0)) ∧
    ((mopeka_handle_mfg env addr buf 10).exit = Exit.uid_mismatch →
      (mopeka_handle_mfg env addr buf 10).ret = -1 ∧
      (mopeka_handle_mfg env addr buf 10).calls = []) := by
  have h5 : buf.getD 5 0 = buf.get ⟨5, by omega⟩ := by
    rw [List.get_eq_getElem]; exact List.getD_eq_getElem buf 0 (by omega)
  have h6 : buf.getD 6 0 = buf.get ⟨6, by omega⟩ := by
    rw [List.get_eq_getElem]; exact List.getD_eq_getElem buf 0 (by omega)
  have h7 : buf.getD 7 0 = buf.get ⟨7, by omega⟩ := by
    rw [List.get_eq_getElem]; exact List.getD_eq_getElem buf 0 (by omega)
  have hcond : (byte_at buf (5 + 0) ≠ ((addr.b 2).val : Int) ∨
      byte_at buf (5 + 1) ≠ ((addr.b 1).val : Int) ∨
      byte_at buf (5 + 2) ≠ ((addr.b 0).val : Int)) ↔
      (buf.get ⟨5, by omega⟩, buf.get ⟨6, by omega⟩, buf.get ⟨7, by omega⟩) ≠
        (addr.b 2, addr.b 1, addr.b 0) := by
    rw [← h5, ← h6, ← h7]
    simp only [byte_at, ne_eq, Nat.cast_inj, Fin.val_inj, Prod.mk.injEq, not_and_or,
      Nat.add_zero]
  rw [← hcond]
  have hrest : ∀ r : Handled,
      r = (match hwid_type (byte_at buf 0) with
        | none => ⟨Exit.unknown_hwid, []⟩
        | some type =>
          let dev := snprintf 16
            (fmt_02x false (addr.b 5).val ++ fmt_02x false (addr.b 4).val ++
             fmt_02x false (addr.b 3).val ++ fmt_02x false (addr.b 2).val ++
             fmt_02x false (addr.b 1).val ++ fmt_02x false (addr.b 0).val)
          if ¬ env.create_ok dev (byte_at buf 0) then
            ⟨Exit.create_failed, [Call.ble_dbus_create dev (byte_at buf 0)]⟩
          else
            let name := snprintf 24
              ("Mopeka " ++ type ++ " " ++ fmt_02x true (byte_at buf (5 + 0)).toNat ++ ":" ++
               fmt_02x true (byte_at buf (5 + 1)).toNat ++ ":" ++
               fmt_02x true (byte_at buf (5 + 2)).toNat)
            if ¬ env.enabled dev then
              ⟨Exit.disabled, [Call.ble_dbus_create dev (byte_at buf 0),
                Call.ble_dbus_set_name name]⟩
            else
              ⟨Exit.done, [Call.ble_dbus_create dev (byte_at buf 0),
                Call.ble_dbus_set_name name, Call.ble_dbus_set_regs buf 10,
                Call.mopeka_update_level, Call.ble_dbus_update]⟩) →
      r.exit ≠ Exit.uid_mismatch := by
    intro r hr
    subst hr
    split
    · simp
    · dsimp only
      split_ifs <;> simp
  unfold mopeka_handle_mfg
  by_cases hc : (byte_at buf (5 + 0) ≠ ((addr.b 2).val : Int) ∨
      byte_at buf (5 + 1) ≠ ((addr.b 1).val : Int) ∨
      byte_at buf (5 + 2) ≠ ((addr.b 0).val : Int))
  · simp [hc, Handled.ret, Exit.code]
  · simp only [ne_eq, not_true_eq_false, if_false, hc]
    have hne := hrest _ rfl
    constructor
    · exact ⟨fun h => absurd h hne, fun h => h.elim⟩
    · exact fun h => absurd h hne

theorem handle_mfg_identity_check_witness :
    (sample_frame 3).length = 10 ∧
    ((mopeka_handle_mfg sample_env sample_addr (sample_frame 3) 10).exit = Exit.uid_mismatch ↔
      ((sample_frame 3).get ⟨5, by decide⟩, (sample_frame 3).get ⟨6, by decide⟩,
        (sample_frame 3).get ⟨7, by decide⟩) ≠
        (sample_addr.b 2, sample_addr.b 1, sample_addr.b 0)) :=
  ⟨by decide, (handle_mfg_identity_check sample_env sample_addr (sample_frame 3) (by decide)).1⟩

/-- C3: evaluation of the handler at a frame from a recognized sensor with
the extension bit set.  Byte 0 is 0x83, whose bits 0-6 are the id 3; the
identity bytes match; the switch on the whole byte takes its default arm,
so the handler returns -1 with no call made, while the same frame with bit 7
clear is decoded. -/
theorem handle_mfg_extension_bit_rejected :
    (sample_frame 0x83).length = 10 ∧
    ((sample_frame 0x83).getD 0 0).val &&& 0x7f = 3 ∧
    ((sample_frame 0x83).getD 5 0, (sample_frame 0x83).getD 6 0, (sample_frame 0x83).getD 7 0) =
      (sample_addr.b 2, sample_addr.b 1, sample_addr.b 0) ∧
    mopeka_handle_mfg sample_env sample_addr (sample_frame 0x83) 10 =
      ⟨Exit.unknown_hwid, []⟩ ∧
    (mopeka_handle_mfg sample_env sample_addr (sample_frame 0x83) 10).ret = -1 ∧
    (mopeka_handle_mfg sample_env sample_addr (sample_frame 0x03) 10).exit = Exit.done ∧
    (mopeka_handle_mfg sample_env sample_addr (sample_frame 0x03) 10).ret = 0 := by
  decide

/-- C4: the translator fails exactly when the hardware id is not one of
3, 4, 5, 8, 9, 10, 11, 12, or it is one of 8, 9, 12 and the fluid type is not
one of 1, 2, 3, 5, 11, 8, 6, 7. -/
theorem xlate_level_fails_iff (root : Root) (rv : Nat) :
    mopeka_xlate_level root rv = none ↔
      (root.value_int "HardwareID" ∉ ([3, 4, 5, 8, 9, 10, 11, 12] : List Int) ∨
       (root.value_int "HardwareID" ∈ ([8, 9, 12] : List Int) ∧
        root.value_int "FluidType" ∉ ([1, 2, 3, 5, 11, 8, 6, 7] : List Int))) := by
  unfold mopeka_xlate_level mopeka_scale
  generalize root.value_int "HardwareID" = hwid
  generalize root.value_int "FluidType" = fluid
  simp only [HW_ID_PRO, HW_ID_PRO_200, HW_ID_PRO_H2O, HW_ID_PRO_PLUS_BLE, HW_ID_PRO_PLUS_CELL,
    HW_ID_TOPDOWN_BLE, HW_ID_TOPDOWN_CELL, HW_ID_UNIVERSAL, FLUID_TYPE_FRESH_WATER,
    FLUID_TYPE_WASTE_WATER, FLUID_TYPE_LIVE_WELL, FLUID_TYPE_BLACK_WATER, FLUID_TYPE_RAW_WATER,
    FLUID_TYPE_LPG, FLUID_TYPE_GASOLINE, FLUID_TYPE_DIESEL, List.mem_cons, List.mem_singleton,
    List.not_mem_nil, or_false]
  split_ifs <;> simp <;> omega

/-- C5: whenever the translator succeeds, the distance it stores is
`rv_eff * (blend + c0 + c1*T + c2*T^2) / 10` in exact arithmetic, with
`T = Temperature + 40`, the coefficient set the specification assigns to the
hardware id and fluid type, and the butane blend for the LPG set only. -/
theorem xlate_level_distance (root : Root) (rv : Nat) (d : ℚ)
    (h : mopeka_xlate_level root rv = some d) :
    ∃ set : CoefSet,
      spec_coef_set (root.value_int "HardwareID") (root.value_int "FluidType") = some set ∧
      d = spec_distance set (rv_effective (root.value_int "TankLevelExtension") rv : ℚ)
            ((root.value_int "Temperature" + 40 : Int) : ℚ)
            (root.value_int "ButaneRatio" : ℚ) := by
  unfold mopeka_xlate_level mopeka_scale at h
  generalize root.value_int "HardwareID" = hwid at h ⊢
  generalize root.value_int "FluidType" = fluid at h ⊢
  simp only [HW_ID_PRO, HW_ID_PRO_200, HW_ID_PRO_H2O, HW_ID_PRO_PLUS_BLE, HW_ID_PRO_PLUS_CELL,
    HW_ID_TOPDOWN_BLE, HW_ID_TOPDOWN_CELL, HW_ID_UNIVERSAL, FLUID_TYPE_FRESH_WATER,
    FLUID_TYPE_WASTE_WATER, FLUID_TYPE_LIVE_WELL, FLUID_TYPE_BLACK_WATER, FLUID_TYPE_RAW_WATER,
    FLUID_TYPE_LPG, FLUID_TYPE_GASOLINE, FLUID_TYPE_DIESEL] at h
  split_ifs at h with h1 h2 h3 h4 h5 h6 h7
  · subst h1
    refine ⟨CoefSet.lpg, by simp [spec_coef_set], ?_⟩
    simp only [Option.some.injEq] at h
    rw [← h]
    simp only [spec_distance, CoefSet.coefs, mopeka_scale_butane, mopeka_coefs_lpg,
      mopeka_coefs_butane, List.getD_cons_zero, List.getD_cons_succ, if_true]
    push_cast
    ring
  · subst h2
    refine ⟨CoefSet.h2o, by simp [spec_coef_set], ?_⟩
    simp only [Option.some.injEq] at h
    rw [← h]
    simp only [spec_distance, CoefSet.coefs, mopeka_coefs_h2o, List.getD_cons_zero,
      List.getD_cons_succ, reduceCtorEq, if_false]
    push_cast
    ring
  · have hw : hwid ∈ ([8, 9, 12] : List Int) := by simpa using h3
    have hf : fluid ≠ 8 := by omega
    have hf2 : fluid ∈ ([1, 2, 3, 5, 11] : List Int) := by simpa using h4
    refine ⟨CoefSet.h2o, by simp only [spec_coef_set, h1, h2, hw, hf, hf2, if_true, if_false], ?_⟩
    simp only [Option.some.injEq] at h
    rw [← h]
    simp only [spec_distance, CoefSet.coefs, mopeka_coefs_h2o, List.getD_cons_zero,
      List.getD_cons_succ, reduceCtorEq, if_false]
    push_cast
    ring
  · have hw : hwid ∈ ([8, 9, 12] : List Int) := by simpa using h3
    refine ⟨CoefSet.lpg, by simp only [spec_coef_set, h1, h2, hw, h5, if_true, if_false], ?_⟩
    simp only [Option.some.injEq] at h
    rw [← h]
    simp only [spec_distance, CoefSet.coefs, mopeka_scale_butane, mopeka_coefs_lpg,
      mopeka_coefs_butane, List.getD_cons_zero, List.getD_cons_succ, if_true]
    push_cast
    ring
  · have hw : hwid ∈ ([8, 9, 12] : List Int) := by simpa using h3
    have hf2 : fluid ∉ ([1, 2, 3, 5, 11] : List Int) := by simpa using h4
    have hf3 : fluid ∈ ([6, 7] : List Int) := by simpa using h6
    refine ⟨CoefSet.gasoline,
      by simp only [spec_coef_set, h1, h2, hw, h5, hf2, hf3, if_true, if_false], ?_⟩
    simp only [Option.some.injEq] at h
    rw [← h]
    simp only [spec_distance, CoefSet.coefs, mopeka_coefs_gasoline, List.getD_cons_zero,
      List.getD_cons_succ, reduceCtorEq, if_false]
    push_cast
    ring
  · have hw : hwid ∉ ([8, 9, 12] : List Int) := by simpa using h3
    have hw2 : hwid ∈ ([4, 10, 11] : List Int) := by simpa using h7
    refine ⟨CoefSet.air, by simp only [spec_coef_set, h1, h2, hw, hw2, if_true, if_false], ?_⟩
    simp only [Option.some.injEq] at h
    rw [← h]
    simp only [spec_distance, CoefSet.coefs, mopeka_coefs_air, List.getD_cons_zero,
      List.getD_cons_succ, reduceCtorEq, if_false]
    push_cast
    ring

theorem xlate_level_distance_witness :
    mopeka_xlate_level sample_root_h2o 500 = some (335071 / 10000) ∧
    ∃ set : CoefSet,
      spec_coef_set (sample_root_h2o.value_int "HardwareID")
        (sample_root_h2o.value_int "FluidType") = some set ∧
      (335071 / 10000 : ℚ) =
        spec_distance set (rv_effective (sample_root_h2o.value_int "TankLevelExtension") 500 : ℚ)
          ((sample_root_h2o.value_int "Temperature" + 40 : Int) : ℚ)
          (sample_root_h2o.value_int "ButaneRatio" : ℚ) :=
  have h : mopeka_xlate_level sample_root_h2o 500 = some (335071 / 10000) := by
    simp [mopeka_xlate_level, mopeka_scale, sample_root_h2o, root_of, rv_effective,
      mopeka_coefs_h2o, HW_ID_PRO, HW_ID_PRO_H2O]
    norm_num
  ⟨h, xlate_level_distance sample_root_h2o 500 (335071 / 10000) h⟩

/-- C6: for a raw value `v` of at most 16383 the value multiplied by the
scale is `16384 + 4 * v` when the extension register is non-zero and `v` when
it is zero; 100 gives 16784 and 100. -/
theorem xlate_level_effective_rv (root : Root) (v : Nat) (hv : v ≤ 16383) :
    (root.value_int "TankLevelExtension" ≠ 0 →
      rv_effective (root.value_int "TankLevelExtension") v = 16384 + 4 * v) ∧
    (root.value_int "TankLevelExtension" = 0 →
      rv_effective (root.value_int "TankLevelExtension") v = v) ∧
    mopeka_xlate_level root v =
      (mopeka_scale root (root.value_int "HardwareID") (root.value_int "FluidType")
          (root.value_int "Temperature" + 40)).map
        (fun scale =>
          ((if root.value_int "TankLevelExtension" ≠ 0 then 16384 + 4 * v else v : Nat) : ℚ)
            * scale / 10) ∧
    rv_effective 1 100 = 16784 ∧ rv_effective 0 100 = 100 := by
  have hmod : (16384 + v * 4) % 2 ^ 64 = 16384 + 4 * v := by
    rw [Nat.mod_eq_of_lt (by omega)]; omega
  have heff : rv_effective (root.value_int "TankLevelExtension") v =
      if root.value_int "TankLevelExtension" ≠ 0 then 16384 + 4 * v else v := by
    unfold rv_effective
    split_ifs
    · exact hmod
    · rfl
  refine ⟨fun h => ?_, fun h => ?_, ?_, by decide, by decide⟩
  · rw [heff, if_pos h]
  · rw [heff, if_neg (not_not.mpr h)]
  · unfold mopeka_xlate_level
    dsimp only
    rw [heff]
    cases mopeka_scale root (root.value_int "HardwareID") (root.value_int "FluidType")
      (root.value_int "Temperature" + 40) <;> rfl

theorem xlate_level_effective_rv_witness :
    (100 : Nat) ≤ 16383 ∧
    mopeka_xlate_level sample_root_lpg 100 =
      (mopeka_scale sample_root_lpg (sample_root_lpg.value_int "HardwareID")
          (sample_root_lpg.value_int "FluidType")
          (sample_root_lpg.value_int "Temperature" + 40)).map
        (fun scale =>
          ((if sample_root_lpg.value_int "TankLevelExtension" ≠ 0 then 16384 + 4 * 100 else 100
            : Nat) : ℚ) * scale / 10) :=
  ⟨by decide, (xlate_level_effective_rv sample_root_lpg 100 (by decide)).2.2.1⟩

/-! ### The level calculation -/

theorem round_half_even_intCast (n : Int) : round_half_even (n : ℚ) = n := by
  simp [round_half_even]

theorem clamp_level_fin (q : ℚ) : clamp_level (FVal.fin q) = FVal.fin (max 0 (min 1 q)) := by
  unfold clamp_level
  by_cases h0 : q < 0
  · have h1 : ¬ (1 : ℚ) < 0 := by norm_num
    simp [FVal.lt, FVal.gt, h0, h1, min_eq_right (le_of_lt (lt_trans h0 one_pos)),
      max_eq_left (le_of_lt h0)]
  · by_cases h1 : 1 < q
    · simp [FVal.lt, FVal.gt, h0, h1, min_eq_left (le_of_lt h1)]
    · simp [FVal.lt, FVal.gt, h0, h1, min_eq_right (not_lt.mp h1), max_eq_right (not_lt.mp h0)]

/-- C7: evaluation of the level calculation on a top-down sensor whose two
endpoints are equal and whose distance reads 0.  No fault is reported; the
quotient is `0 / 0`, a NaN, which passes both clamping tests, so the fraction
used is no number of [0,1], `Remaining` is set to a NaN and `Level` to the
unspecified `lrintf` of a NaN. -/
theorem update_level_equal_endpoints_nan :
    sample_root_equal_zero.value_int "HardwareID" = 4 ∧
    sample_root_equal_zero.value_int "RawValue" = 0 ∧
    sample_root_equal_zero.value_int "RawValueEmpty" = 20 ∧
    sample_root_equal_zero.value_int "RawValueFull" = 20 ∧
    level_quotient 4 0 20 20 = some FVal.nan ∧
    clamp_level FVal.nan = FVal.nan ∧
    mopeka_update_level sample_root_equal_zero =
      [Write.ble_dbus_set_int "Level" none, Write.veItemOwnerSet "Remaining" FVal.nan] ∧
    mopeka_update_level sample_root_equal_zero ≠ fault_writes := by
  have h : mopeka_update_level sample_root_equal_zero =
      [Write.ble_dbus_set_int "Level" none, Write.veItemOwnerSet "Remaining" FVal.nan] := by
    simp [mopeka_update_level, sample_root_equal_zero, root_of, level_quotient, HW_ID_PRO_200,
      HW_ID_TOPDOWN_BLE, HW_ID_TOPDOWN_CELL, FVal.div, clamp_level, FVal.lt, FVal.gt, FVal.mul,
      lrintf]
  refine ⟨by decide, by decide, by decide, by decide, ?_, ?_, h, ?_⟩
  · simp [level_quotient, HW_ID_PRO_200, HW_ID_TOPDOWN_BLE, HW_ID_TOPDOWN_CELL, FVal.div]
  · simp [clamp_level, FVal.lt, FVal.gt]
  · rw [h]; simp [fault_writes]

/-! ### Fault decision -/

theorem level_quotient_none_iff (hwid height empty full : Int) :
    level_quotient hwid height empty full = none ↔
      (hwid ∈ ([4, 10, 11] : List Int) ∧ empty < full) ∨
      (hwid ∉ ([4, 10, 11] : List Int) ∧ full ≤ empty) := by
  unfold level_quotient
  simp only [HW_ID_PRO_200, HW_ID_TOPDOWN_BLE, HW_ID_TOPDOWN_CELL, List.mem_cons,
    List.mem_singleton, List.not_mem_nil, or_false]
  split_ifs <;> simp <;> omega

theorem level_quotient_fin (hwid height empty full : Int) (x : FVal)
    (h : level_quotient hwid height empty full = some x) (hne : empty ≠ full) :
    ∃ q : ℚ, x = FVal.fin q := by
  unfold level_quotient at h
  have h1 : ((empty - full : Int) : ℚ) ≠ 0 := by
    intro h0
    have : empty - full = 0 := by exact_mod_cast h0
    omega
  have h2 : ((full - empty : Int) : ℚ) ≠ 0 := by
    intro h0
    have : full - empty = 0 := by exact_mod_cast h0
    omega
  split_ifs at h
  · simp only [FVal.div, h1, if_false, Option.some.injEq] at h
    exact ⟨_, h.symm⟩
  · simp only [FVal.div, h2, if_false, Option.some.injEq] at h
    exact ⟨_, h.symm⟩

/-- On a geometry with `empty ≠ full` that is not faulted, the quotient is the
finite one of the specification. -/
theorem level_quotient_eq (hwid height empty full : Int) (x : FVal)
    (h : level_quotient hwid height empty full = some x) (hne : empty ≠ full) :
    clamp_level x = FVal.fin (spec_fraction hwid height empty full) := by
  unfold level_quotient at h
  have h1 : ((empty - full : Int) : ℚ) ≠ 0 := by
    intro h0
    have : empty - full = 0 := by exact_mod_cast h0
    omega
  have h2 : ((full - empty : Int) : ℚ) ≠ 0 := by
    intro h0
    have : full - empty = 0 := by exact_mod_cast h0
    omega
  simp only [HW_ID_PRO_200, HW_ID_TOPDOWN_BLE, HW_ID_TOPDOWN_CELL] at h
  split_ifs at h with ht hf hf
  · have hm : hwid ∈ ([4, 10, 11] : List Int) := by
      simp only [List.mem_cons, List.mem_singleton, List.not_mem_nil, or_false]; omega
    simp only [FVal.div, h1, if_false, Option.some.injEq] at h
    rw [← h, clamp_level_fin]
    simp only [spec_fraction, hm, if_true]
    push_cast
    rfl
  · have hm : hwid ∉ ([4, 10, 11] : List Int) := by
      simp only [List.mem_cons, List.mem_singleton, List.not_mem_nil, or_false]; omega
    simp only [FVal.div, h2, if_false, Option.some.injEq] at h
    rw [← h, clamp_level_fin]
    simp only [spec_fraction, hm, if_false]
    push_cast
    rfl

/-- With a `Capacity` item and `empty ≠ full`, a run that is not faulted
publishes the rounded percentage of the specified fraction and that fraction
times the capacity. -/
theorem update_level_published_fraction (root : Root) (c : ℚ) (hc : root.capacity = some c)
    (hne : root.value_int "RawValueEmpty" ≠ root.value_int "RawValueFull")
    (hq : level_quotient (root.value_int "HardwareID") (root.value_int "RawValue")
      (root.value_int "RawValueEmpty") (root.value_int "RawValueFull") ≠ none) :
    mopeka_update_level root =
      [Write.ble_dbus_set_int "Level" (some (round_half_even
          (spec_fraction (root.value_int "HardwareID") (root.value_int "RawValue")
            (root.value_int "RawValueEmpty") (root.value_int "RawValueFull") * 100))),
        Write.veItemOwnerSet "Remaining" (FVal.fin
          (spec_fraction (root.value_int "HardwareID") (root.value_int "RawValue")
            (root.value_int "RawValueEmpty") (root.value_int "RawValueFull") * c))] := by
  unfold mopeka_update_level
  simp only [hc]
  cases hx : level_quotient (root.value_int "HardwareID") (root.value_int "RawValue")
      (root.value_int "RawValueEmpty") (root.value_int "RawValueFull") with
  | none => exact absurd hx hq
  | some x =>
    simp only [level_quotient_eq _ _ _ _ x hx hne, FVal.mul, lrintf]

/-- C8 as stated fails in two places.  With no `Capacity` item a bottom-up
sensor with `empty >= full` gets no fault and no write at all; and a top-down
sensor with `empty = full` and distance 0, a case the claim counts as
publishing, gets a NaN `Remaining` and an unspecified `Level`. -/
theorem update_level_fault_iff_counterexample :
    (sample_root_no_capacity.value_int "HardwareID" = 3 ∧
      sample_root_no_capacity.value_int "RawValueEmpty" ≥
        sample_root_no_capacity.value_int "RawValueFull" ∧
      mopeka_update_level sample_root_no_capacity = []) ∧
    (sample_root_all_zero.value_int "HardwareID" = 10 ∧
      ¬ (sample_root_all_zero.value_int "RawValueEmpty" <
        sample_root_all_zero.value_int "RawValueFull") ∧
      mopeka_update_level sample_root_all_zero =
        [Write.ble_dbus_set_int "Level" none, Write.veItemOwnerSet "Remaining" FVal.nan]) := by
  refine ⟨⟨by decide, by decide, ?_⟩, by decide, by decide, ?_⟩
  · simp [mopeka_update_level, sample_root_no_capacity, root_of]
  · simp [mopeka_update_level, sample_root_all_zero, root_of, level_quotient, HW_ID_PRO_200,
      HW_ID_TOPDOWN_BLE, HW_ID_TOPDOWN_CELL, FVal.div, clamp_level, FVal.lt, FVal.gt, FVal.mul,
      lrintf]

/-- C8, amended: when the `Capacity` item exists, the fault (Status 4, Level
and Remaining invalidated, nothing else written) is reported exactly when
`empty < full` on hardware 4, 10, 11, respectively `empty >= full` on any
other hardware, and in every other case with `empty ≠ full` a numeric Level
and a numeric Remaining are published; when the `Capacity` item does not
exist, nothing is written, whatever the geometry is. -/
theorem update_level_fault_iff (root : Root) :
    (root.capacity = none → mopeka_update_level root = []) ∧
    (∀ c : ℚ, root.capacity = some c →
      (mopeka_update_level root = fault_writes ↔
        (root.value_int "HardwareID" ∈ ([4, 10, 11] : List Int) ∧
          root.value_int "RawValueEmpty" < root.value_int "RawValueFull") ∨
        (root.value_int "HardwareID" ∉ ([4, 10, 11] : List Int) ∧
          root.value_int "RawValueFull" ≤ root.value_int "RawValueEmpty")) ∧
      (mopeka_update_level root ≠ fault_writes →
        root.value_int "RawValueEmpty" ≠ root.value_int "RawValueFull" →
        ∃ (n : Int) (q : ℚ), mopeka_update_level root =
          [Write.ble_dbus_set_int "Level" (some n),
            Write.veItemOwnerSet "Remaining" (FVal.fin q)])) := by
  constructor
  · intro hn
    unfold mopeka_update_level
    simp only [hn]
  · intro c hc
    rw [← level_quotient_none_iff (root.value_int "HardwareID") (root.value_int "RawValue")]
    unfold mopeka_update_level
    simp only [hc]
    cases hq : level_quotient (root.value_int "HardwareID") (root.value_int "RawValue")
        (root.value_int "RawValueEmpty") (root.value_int "RawValueFull") with
    | none => simp
    | some x =>
      refine ⟨by simp [fault_writes], fun _ hne => ?_⟩
      obtain ⟨q, rfl⟩ := level_quotient_fin _ _ _ _ x hq hne
      refine ⟨round_half_even (max 0 (min 1 q) * 100), max 0 (min 1 q) * c, ?_⟩
      simp [clamp_level_fin, FVal.mul, lrintf]

theorem update_level_fault_iff_witness :
    (sample_root_no_capacity.capacity = none ∧
      mopeka_update_level sample_root_no_capacity = []) ∧
    sample_root_bottom_up.capacity = some (2 / 10) ∧
    (mopeka_update_level sample_root_bottom_up = fault_writes ↔
      (sample_root_bottom_up.value_int "HardwareID" ∈ ([4, 10, 11] : List Int) ∧
        sample_root_bottom_up.value_int "RawValueEmpty" <
          sample_root_bottom_up.value_int "RawValueFull") ∨
      (sample_root_bottom_up.value_int "HardwareID" ∉ ([4, 10, 11] : List Int) ∧
        sample_root_bottom_up.value_int "RawValueFull" ≤
          sample_root_bottom_up.value_int "RawValueEmpty")) :=
  ⟨⟨rfl, (update_level_fault_iff sample_root_no_capacity).1 rfl⟩, rfl,
    ((update_level_fault_iff sample_root_bottom_up).2 (2 / 10) rfl).1⟩

/-- C9: evaluation of the level calculation on a top-down sensor with
`full = empty = 20` and distance 5.  No fault is reported: the quotient
`-5 / 0` is computed, the negative infinity is clamped to 0, and Level 0 and
Remaining 0 are published. -/
theorem update_level_equal_endpoints_no_fault :
    sample_root_equal.value_int "HardwareID" = 4 ∧
    sample_root_equal.value_int "RawValue" = 5 ∧
    sample_root_equal.value_int "RawValueEmpty" = 20 ∧
    sample_root_equal.value_int "RawValueFull" = 20 ∧
    level_quotient 4 5 20 20 = some FVal.ninf ∧
    mopeka_update_level sample_root_equal =
      [Write.ble_dbus_set_int "Level" (some 0), Write.veItemOwnerSet "Remaining" (FVal.fin 0)] ∧
    mopeka_update_level sample_root_equal ≠ fault_writes := by
  have hq : level_quotient 4 5 20 20 = some FVal.ninf := by
    norm_num [level_quotient, HW_ID_PRO_200, HW_ID_TOPDOWN_BLE, HW_ID_TOPDOWN_CELL, FVal.div]
  have h : mopeka_update_level sample_root_equal =
      [Write.ble_dbus_set_int "Level" (some 0),
        Write.veItemOwnerSet "Remaining" (FVal.fin 0)] := by
    have hv : mopeka_update_level sample_root_equal =
        match level_quotient 4 5 20 20 with
        | none => fault_writes
        | some level =>
          [Write.ble_dbus_set_int "Level" (lrintf ((clamp_level level).mul 100)),
            Write.veItemOwnerSet "Remaining" ((clamp_level level).mul (2 / 10))] := by
      simp [mopeka_update_level, sample_root_equal, root_of]
    have hc : clamp_level FVal.ninf = FVal.fin 0 := by
      norm_num [clamp_level, FVal.lt, FVal.gt]
    have hr : round_half_even 0 = 0 := by
      simpa using round_half_even_intCast 0
    rw [hv, hq]
    simp [hc, FVal.mul, lrintf, hr]
  refine ⟨by decide, by decide, by decide, by decide, hq, h, ?_⟩
  rw [h]; simp [fault_writes]

/-- C10 as stated fails: a top-down Pro-200 with `empty = 20`, `full = 0` and
distance 5 publishes Level 75 although `empty < full` does not hold. -/
theorem update_level_top_down_counterexample :
    sample_root_top_down.value_int "HardwareID" = 4 ∧
    mopeka_update_level sample_root_top_down =
      [Write.ble_dbus_set_int "Level" (some 75),
        Write.veItemOwnerSet "Remaining" (FVal.fin (3 / 20))] ∧
    ¬ (sample_root_top_down.value_int "RawValueEmpty" <
        sample_root_top_down.value_int "RawValueFull") := by
  have hq : level_quotient 4 5 20 0 = some (FVal.fin (3 / 4)) := by
    norm_num [level_quotient, HW_ID_PRO_200, HW_ID_TOPDOWN_BLE, HW_ID_TOPDOWN_CELL, FVal.div]
  have hv : mopeka_update_level sample_root_top_down =
      match level_quotient 4 5 20 0 with
      | none => fault_writes
      | some level =>
        [Write.ble_dbus_set_int "Level" (lrintf ((clamp_level level).mul 100)),
          Write.veItemOwnerSet "Remaining" ((clamp_level level).mul (2 / 10))] := by
    simp [mopeka_update_level, sample_root_top_down, root_of]
  have hc : clamp_level (FVal.fin (3 / 4)) = FVal.fin (3 / 4) := by
    rw [clamp_level_fin]; norm_num
  have hr : round_half_even (3 / 4 * 100) = 75 := by
    have h75 : (3 / 4 * 100 : ℚ) = ((75 : Int) : ℚ) := by norm_num
    rw [h75, round_half_even_intCast]
  refine ⟨by decide, ?_, by decide⟩
  rw [hv, hq]
  simp only [hc, FVal.mul, lrintf, hr]
  norm_num

/-- C10, amended: whenever a numeric Level is published for hardware 4, 10 or
11, the geometry satisfies `empty >= full`. -/
theorem update_level_top_down_published (root : Root) (n : Int)
    (ht : root.value_int "HardwareID" ∈ ([4, 10, 11] : List Int))
    (hp : Write.ble_dbus_set_int "Level" (some n) ∈ mopeka_update_level root) :
    root.value_int "RawValueFull" ≤ root.value_int "RawValueEmpty" := by
  by_contra hlt
  have hnone : level_quotient (root.value_int "HardwareID") (root.value_int "RawValue")
      (root.value_int "RawValueEmpty") (root.value_int "RawValueFull") = none :=
    (level_quotient_none_iff _ _ _ _).mpr (Or.inl ⟨ht, not_le.mp hlt⟩)
  unfold mopeka_update_level at hp
  cases hc : root.capacity with
  | none => simp [hc] at hp
  | some c => simp [hc, hnone, fault_writes] at hp

theorem update_level_top_down_published_witness :
    sample_root_top_down_cell.value_int "HardwareID" ∈ ([4, 10, 11] : List Int) ∧
    Write.ble_dbus_set_int "Level" (some 50) ∈ mopeka_update_level sample_root_top_down_cell ∧
    sample_root_top_down_cell.value_int "RawValueFull" ≤
      sample_root_top_down_cell.value_int "RawValueEmpty" :=
  have hp : Write.ble_dbus_set_int "Level" (some 50) ∈
      mopeka_update_level sample_root_top_down_cell := by
    have hq : level_quotient 11 45 100 10 = some (FVal.fin (1 / 2)) := by
      norm_num [level_quotient, HW_ID_PRO_200, HW_ID_TOPDOWN_BLE, HW_ID_TOPDOWN_CELL, FVal.div]
    have hv : mopeka_update_level sample_root_top_down_cell =
        match level_quotient 11 45 100 10 with
        | none => fault_writes
        | some level =>
          [Write.ble_dbus_set_int "Level" (lrintf ((clamp_level level).mul 100)),
            Write.veItemOwnerSet "Remaining" ((clamp_level level).mul 1)] := by
      simp [mopeka_update_level, sample_root_top_down_cell, root_of]
    have hc : clamp_level (FVal.fin (1 / 2)) = FVal.fin (1 / 2) := by
      rw [clamp_level_fin]; norm_num
    have hr : round_half_even (1 / 2 * 100) = 50 := by
      have h50 : (1 / 2 * 100 : ℚ) = ((50 : Int) : ℚ) := by norm_num
      rw [h50, round_half_even_intCast]
    rw [hv, hq]
    simp only [hc, FVal.mul, lrintf, hr]
    simp
  ⟨by decide, hp, update_level_top_down_published sample_root_top_down_cell 50 (by decide) hp⟩

/-! ### Rounding -/

theorem round_half_even_near (x : ℚ) :
    |(round_half_even x : ℚ) - x| ≤ 1 / 2 ∧
    (|(round_half_even x : ℚ) - x| = 1 / 2 → Even (round_half_even x)) := by
  have h0 : (0 : ℚ) ≤ x - (⌊x⌋ : ℚ) := by
    have := Int.floor_le x
    linarith
  have h1 : x - (⌊x⌋ : ℚ) < 1 := by
    have := Int.lt_floor_add_one x
    linarith
  unfold round_half_even
  dsimp only
  split_ifs with ha hb hc
  · constructor
    · rw [abs_le]; constructor <;> linarith
    · intro h
      rw [abs_sub_comm, abs_of_nonneg h0] at h
      linarith
  · constructor
    · rw [abs_le]; push_cast; constructor <;> linarith
    · intro h
      have hpos : (0 : ℚ) ≤ ((⌊x⌋ + 1 : Int) : ℚ) - x := by push_cast; linarith
      rw [abs_of_nonneg hpos] at h
      push_cast at h
      linarith
  · constructor
    · rw [abs_le]; constructor <;> linarith
    · intro _
      exact Int.even_iff.mpr hc
  · constructor
    · rw [abs_le]; push_cast; constructor <;> linarith
    · intro _
      have hodd : ⌊x⌋ % 2 = 1 := by omega
      rw [Int.even_add_one, Int.even_iff]
      omega

theorem round_half_even_mono (x y : ℚ) (h : x ≤ y) :
    round_half_even x ≤ round_half_even y := by
  by_contra hlt
  have hlt1 : round_half_even y + 1 ≤ round_half_even x := by omega
  have hq : ((round_half_even y : ℚ)) + 1 ≤ (round_half_even x : ℚ) := by exact_mod_cast hlt1
  obtain ⟨hx, hxe⟩ := round_half_even_near x
  obtain ⟨hy, hye⟩ := round_half_even_near y
  rw [abs_le] at hx hy
  have hxy : x = y := by linarith [hx.1, hx.2, hy.1, hy.2]
  subst hxy
  omega

theorem round_half_even_range (x : ℚ) (h0 : 0 ≤ x) (h1 : x ≤ 100) :
    0 ≤ round_half_even x ∧ round_half_even x ≤ 100 := by
  constructor
  · have := round_half_even_mono 0 x h0
    have h := round_half_even_intCast 0
    simp only [Int.cast_zero] at h
    omega
  · have := round_half_even_mono x 100 h1
    have h := round_half_even_intCast 100
    simp only [Int.cast_ofNat] at h
    omega

/-! ### Range and monotonicity of the fraction -/

theorem spec_fraction_bounds (hwid distance empty full : Int) :
    0 ≤ spec_fraction hwid distance empty full ∧ spec_fraction hwid distance empty full ≤ 1 := by
  unfold spec_fraction
  exact ⟨le_max_left _ _, max_le zero_le_one (min_le_left _ _)⟩

theorem spec_fraction_bottom_up_mono (hwid d1 d2 empty full : Int)
    (hb : hwid ∉ ([4, 10, 11] : List Int)) (hv : empty < full) (hd : d1 ≤ d2) :
    spec_fraction hwid d1 empty full ≤ spec_fraction hwid d2 empty full := by
  have hpos : (0 : ℚ) < (full : ℚ) - (empty : ℚ) := by
    have : (empty : ℚ) < (full : ℚ) := by exact_mod_cast hv
    linarith
  have hdq : (d1 : ℚ) ≤ (d2 : ℚ) := by exact_mod_cast hd
  simp only [spec_fraction, hb, if_false]
  refine max_le_max le_rfl (min_le_min le_rfl ?_)
  exact div_le_div_of_nonneg_right (by linarith) (le_of_lt hpos)

theorem spec_fraction_top_down_mono (hwid d1 d2 empty full : Int)
    (ht : hwid ∈ ([4, 10, 11] : List Int)) (hv : full < empty) (hd : d1 ≤ d2) :
    spec_fraction hwid d2 empty full ≤ spec_fraction hwid d1 empty full := by
  have hpos : (0 : ℚ) < (empty : ℚ) - (full : ℚ) := by
    have : (full : ℚ) < (empty : ℚ) := by exact_mod_cast hv
    linarith
  have hdq : (d1 : ℚ) ≤ (d2 : ℚ) := by exact_mod_cast hd
  simp only [spec_fraction, ht, if_true]
  refine max_le_max le_rfl (min_le_min le_rfl ?_)
  exact div_le_div_of_nonneg_right (by linarith) (le_of_lt hpos)

theorem spec_fraction_bottom_up_low (hwid distance empty full : Int)
    (hb : hwid ∉ ([4, 10, 11] : List Int)) (hv : empty < full) (hd : distance ≤ empty) :
    spec_fraction hwid distance empty full = 0 := by
  have hpos : (0 : ℚ) < (full : ℚ) - (empty : ℚ) := by
    have : (empty : ℚ) < (full : ℚ) := by exact_mod_cast hv
    linarith
  have hdq : (distance : ℚ) ≤ (empty : ℚ) := by exact_mod_cast hd
  have hx : ((distance : ℚ) - (empty : ℚ)) / ((full : ℚ) - (empty : ℚ)) ≤ 0 :=
    div_nonpos_of_nonpos_of_nonneg (by linarith) (le_of_lt hpos)
  simp only [spec_fraction, hb, if_false]
  rw [min_eq_right (le_trans hx zero_le_one), max_eq_left hx]

theorem spec_fraction_bottom_up_high (hwid distance empty full : Int)
    (hb : hwid ∉ ([4, 10, 11] : List Int)) (hv : empty < full) (hd : full ≤ distance) :
    spec_fraction hwid distance empty full = 1 := by
  have hpos : (0 : ℚ) < (full : ℚ) - (empty : ℚ) := by
    have : (empty : ℚ) < (full : ℚ) := by exact_mod_cast hv
    linarith
  have hdq : (full : ℚ) ≤ (distance : ℚ) := by exact_mod_cast hd
  have hx : 1 ≤ ((distance : ℚ) - (empty : ℚ)) / ((full : ℚ) - (empty : ℚ)) := by
    rw [le_div_iff₀ hpos]; linarith
  simp only [spec_fraction, hb, if_false]
  rw [min_eq_left hx, max_eq_right zero_le_one]

/-- With a `Capacity` item and `empty ≠ full`, a run that is not faulted
publishes a fraction of [0,1], a percentage of [0,100] and, for a capacity
that is not negative, a remaining volume between 0 and the capacity. -/
theorem update_level_bounds (root : Root) (c : ℚ) (hc : root.capacity = some c)
    (hne : root.value_int "RawValueEmpty" ≠ root.value_int "RawValueFull")
    (hq : level_quotient (root.value_int "HardwareID") (root.value_int "RawValue")
      (root.value_int "RawValueEmpty") (root.value_int "RawValueFull") ≠ none) :
    ∃ (f : ℚ) (n : Int),
      mopeka_update_level root =
        [Write.ble_dbus_set_int "Level" (some n), Write.veItemOwnerSet "Remaining" (FVal.fin (f * c))] ∧
      0 ≤ f ∧ f ≤ 1 ∧ 0 ≤ n ∧ n ≤ 100 ∧ (0 ≤ c → 0 ≤ f * c ∧ f * c ≤ c) := by
  obtain ⟨h0, h1⟩ := spec_fraction_bounds (root.value_int "HardwareID")
    (root.value_int "RawValue") (root.value_int "RawValueEmpty") (root.value_int "RawValueFull")
  refine ⟨_, _, update_level_published_fraction root c hc hne hq, h0, h1, ?_, ?_, ?_⟩
  · exact (round_half_even_range _ (by positivity) (by linarith)).1
  · exact (round_half_even_range _ (by positivity) (by linarith)).2
  · intro hc0
    exact ⟨mul_nonneg h0 hc0, by nlinarith⟩

/-- C11: evaluation of the level calculation on a top-down sensor (id 11)
with `empty = full = 50` and distance 0.  A level is published, not a fault,
but the fraction is the NaN of `0 / 0`: it is no number of [0,1], the
published Level is the unspecified `lrintf` of a NaN and the published
Remaining is a NaN. -/
theorem update_level_span_zero_unbounded :
    sample_root_span_zero.value_int "HardwareID" = 11 ∧
    sample_root_span_zero.value_int "RawValue" = 0 ∧
    sample_root_span_zero.value_int "RawValueEmpty" = 50 ∧
    sample_root_span_zero.value_int "RawValueFull" = 50 ∧
    (level_quotient 11 0 50 50).map clamp_level = some FVal.nan ∧
    (∀ q : ℚ, 0 ≤ q → q ≤ 1 → (level_quotient 11 0 50 50).map clamp_level ≠ some (FVal.fin q)) ∧
    mopeka_update_level sample_root_span_zero =
      [Write.ble_dbus_set_int "Level" none, Write.veItemOwnerSet "Remaining" FVal.nan] := by
  have hq : (level_quotient 11 0 50 50).map clamp_level = some FVal.nan := by
    simp [level_quotient, HW_ID_PRO_200, HW_ID_TOPDOWN_BLE, HW_ID_TOPDOWN_CELL, FVal.div,
      clamp_level, FVal.lt, FVal.gt]
  refine ⟨by decide, by decide, by decide, by decide, hq, ?_, ?_⟩
  · intro q _ _
    rw [hq]
    simp
  · simp [mopeka_update_level, sample_root_span_zero, root_of, level_quotient, HW_ID_PRO_200,
      HW_ID_TOPDOWN_BLE, HW_ID_TOPDOWN_CELL, FVal.div, clamp_level, FVal.lt, FVal.gt, FVal.mul,
      lrintf]

/-- C12 as stated fails: on a bottom-up Pro with `empty = 0`, `full = 8` and
distance 1 the fraction is 1/8, `100 * fraction` is the tie 12.5, rounding
half away from zero gives 13, and the published Level is 12. -/
theorem update_level_rounding_counterexample :
    sample_root_eighth.value_int "HardwareID" = 3 ∧
    sample_root_eighth.value_int "RawValue" - sample_root_eighth.value_int "RawValueEmpty" = 1 ∧
    sample_root_eighth.value_int "RawValueFull" - sample_root_eighth.value_int "RawValueEmpty" = 8 ∧
    (level_quotient 3 1 0 8).map clamp_level = some (FVal.fin (1 / 8)) ∧
    round_half_away (100 * (1 / 8)) = 13 ∧
    mopeka_update_level sample_root_eighth =
      [Write.ble_dbus_set_int "Level" (some 12),
        Write.veItemOwnerSet "Remaining" (FVal.fin (1 / 40))] := by
  have hq : level_quotient 3 1 0 8 = some (FVal.fin (1 / 8)) := by
    norm_num [level_quotient, HW_ID_PRO_200, HW_ID_TOPDOWN_BLE, HW_ID_TOPDOWN_CELL, FVal.div]
  have hc : clamp_level (FVal.fin (1 / 8)) = FVal.fin (1 / 8) := by
    rw [clamp_level_fin]; norm_num
  have hf : ⌊(25 / 2 : ℚ)⌋ = 12 := by
    rw [Int.floor_eq_iff]; constructor <;> norm_num
  have hr : round_half_even (1 / 8 * 100) = 12 := by
    have h : (1 / 8 * 100 : ℚ) = 25 / 2 := by norm_num
    rw [h]
    unfold round_half_even
    rw [hf]
    norm_num
  have ha : round_half_away (100 * (1 / 8)) = 13 := by
    have h : (100 * (1 / 8) + 1 / 2 : ℚ) = ((13 : Int) : ℚ) := by norm_num
    unfold round_half_away
    rw [if_pos (by norm_num), h, Int.floor_intCast]
  have hv : mopeka_update_level sample_root_eighth =
      match level_quotient 3 1 0 8 with
      | none => fault_writes
      | some level =>
        [Write.ble_dbus_set_int "Level" (lrintf ((clamp_level level).mul 100)),
          Write.veItemOwnerSet "Remaining" ((clamp_level level).mul (2 / 10))] := by
    simp [mopeka_update_level, sample_root_eighth, root_of]
  refine ⟨by decide, by decide, by decide, ?_, ha, ?_⟩
  · rw [hq, Option.map_some', hc]
  · rw [hv, hq]
    simp only [hc, FVal.mul, lrintf, hr]
    norm_num

/-- C12, amended: with a `Capacity` item and `empty ≠ full`, the Level
published by a run that is not faulted is the integer nearest to
`100 * fraction`, and on a tie it is the even one of the two nearest
integers. -/
theorem update_level_rounding (root : Root) (c : ℚ) (hc : root.capacity = some c)
    (hne : root.value_int "RawValueEmpty" ≠ root.value_int "RawValueFull")
    (hq : level_quotient (root.value_int "HardwareID") (root.value_int "RawValue")
      (root.value_int "RawValueEmpty") (root.value_int "RawValueFull") ≠ none) :
    ∃ (f : ℚ) (n : Int),
      (level_quotient (root.value_int "HardwareID") (root.value_int "RawValue")
        (root.value_int "RawValueEmpty") (root.value_int "RawValueFull")).map clamp_level =
          some (FVal.fin f) ∧
      mopeka_update_level root =
        [Write.ble_dbus_set_int "Level" (some n), Write.veItemOwnerSet "Remaining" (FVal.fin (f * c))] ∧
      |(n : ℚ) - 100 * f| ≤ 1 / 2 ∧
      (|(n : ℚ) - 100 * f| = 1 / 2 → Even n) := by
  cases hx : level_quotient (root.value_int "HardwareID") (root.value_int "RawValue")
      (root.value_int "RawValueEmpty") (root.value_int "RawValueFull") with
  | none => exact absurd hx hq
  | some x =>
    have hn := round_half_even_near
      (spec_fraction (root.value_int "HardwareID") (root.value_int "RawValue")
        (root.value_int "RawValueEmpty") (root.value_int "RawValueFull") * 100)
    rw [mul_comm _ (100 : ℚ)] at hn
    refine ⟨_, _, ?_, ?_, hn.1, hn.2⟩
    · simp only [Option.map_some', level_quotient_eq _ _ _ _ x hx hne]
    · rw [mul_comm (100 : ℚ)]
      exact update_level_published_fraction root c hc hne hq

theorem update_level_rounding_witness :
    sample_root_bottom_up.capacity = some (2 / 10) ∧
    sample_root_bottom_up.value_int "RawValueEmpty" ≠
      sample_root_bottom_up.value_int "RawValueFull" ∧
    ∃ (f : ℚ) (n : Int),
      (level_quotient (sample_root_bottom_up.value_int "HardwareID")
        (sample_root_bottom_up.value_int "RawValue")
        (sample_root_bottom_up.value_int "RawValueEmpty")
        (sample_root_bottom_up.value_int "RawValueFull")).map clamp_level = some (FVal.fin f) ∧
      mopeka_update_level sample_root_bottom_up =
        [Write.ble_dbus_set_int "Level" (some n),
          Write.veItemOwnerSet "Remaining" (FVal.fin (f * (2 / 10)))] ∧
      |(n : ℚ) - 100 * f| ≤ 1 / 2 ∧
      (|(n : ℚ) - 100 * f| = 1 / 2 → Even n) :=
  ⟨rfl, by decide,
    update_level_rounding sample_root_bottom_up (2 / 10) rfl (by decide)
      (by simp [sample_root_bottom_up, root_of, level_quotient, HW_ID_PRO_200,
        HW_ID_TOPDOWN_BLE, HW_ID_TOPDOWN_CELL])⟩

theorem set_int_raw_value (root : Root) (d : Int) :
    (root.set_int "RawValue" d).value_int "RawValue" = d ∧
    (root.set_int "RawValue" d).value_int "HardwareID" = root.value_int "HardwareID" ∧
    (root.set_int "RawValue" d).value_int "RawValueEmpty" = root.value_int "RawValueEmpty" ∧
    (root.set_int "RawValue" d).value_int "RawValueFull" = root.value_int "RawValueFull" ∧
    (root.set_int "RawValue" d).capacity = root.capacity := by
  simp [Root.set_int]

theorem update_level_set_raw_value (root : Root) (c : ℚ) (d : Int)
    (hc : root.capacity = some c)
    (hv : (root.value_int "HardwareID" ∉ ([4, 10, 11] : List Int) ∧
        root.value_int "RawValueEmpty" < root.value_int "RawValueFull") ∨
      (root.value_int "HardwareID" ∈ ([4, 10, 11] : List Int) ∧
        root.value_int "RawValueFull" < root.value_int "RawValueEmpty")) :
    (level_quotient (root.value_int "HardwareID") d (root.value_int "RawValueEmpty")
      (root.value_int "RawValueFull")).map clamp_level =
      some (FVal.fin (spec_fraction (root.value_int "HardwareID") d
        (root.value_int "RawValueEmpty") (root.value_int "RawValueFull"))) ∧
    mopeka_update_level (root.set_int "RawValue" d) =
      [Write.ble_dbus_set_int "Level" (some (round_half_even
          (spec_fraction (root.value_int "HardwareID") d
            (root.value_int "RawValueEmpty") (root.value_int "RawValueFull") * 100))),
        Write.veItemOwnerSet "Remaining" (FVal.fin
          (spec_fraction (root.value_int "HardwareID") d
            (root.value_int "RawValueEmpty") (root.value_int "RawValueFull") * c))] := by
  obtain ⟨h1, h2, h3, h4, h5⟩ := set_int_raw_value root d
  have hne : root.value_int "RawValueEmpty" ≠ root.value_int "RawValueFull" := by
    rcases hv with hv | hv <;> omega
  have hq : level_quotient (root.value_int "HardwareID") d (root.value_int "RawValueEmpty")
      (root.value_int "RawValueFull") ≠ none := by
    rw [ne_eq, level_quotient_none_iff]
    rcases hv with hv | hv
    · rintro (h | h)
      · exact hv.1 h.1
      · omega
    · rintro (h | h)
      · omega
      · exact h.1 hv.1
  constructor
  · cases hx : level_quotient (root.value_int "HardwareID") d (root.value_int "RawValueEmpty")
        (root.value_int "RawValueFull") with
    | none => exact absurd hx hq
    | some x => rw [Option.map_some', level_quotient_eq _ _ _ _ x hx hne]
  · have h := update_level_published_fraction (root.set_int "RawValue" d) c (by rw [h5, hc])
      (by rw [h3, h4]; exact hne) (by rw [h1, h2, h3, h4]; exact hq)
    rw [h1, h2, h3, h4] at h
    exact h

/-- C13: with the hardware id, the two endpoints and a capacity that is not
negative held fixed, and a geometry the code accepts with `empty ≠ full`, the
fraction, the published Level and the published Remaining do not decrease
with the distance on bottom-up hardware and do not increase with it on
top-down hardware (ids 4, 10, 11). -/
theorem update_level_monotone (root : Root) (c : ℚ) (d1 d2 : Int)
    (hc : root.capacity = some c) (hc0 : 0 ≤ c) (hd : d1 ≤ d2)
    (hv : (root.value_int "HardwareID" ∉ ([4, 10, 11] : List Int) ∧
        root.value_int "RawValueEmpty" < root.value_int "RawValueFull") ∨
      (root.value_int "HardwareID" ∈ ([4, 10, 11] : List Int) ∧
        root.value_int "RawValueFull" < root.value_int "RawValueEmpty")) :
    ∃ (f1 f2 : ℚ) (n1 n2 : Int),
      (level_quotient (root.value_int "HardwareID") d1 (root.value_int "RawValueEmpty")
        (root.value_int "RawValueFull")).map clamp_level = some (FVal.fin f1) ∧
      (level_quotient (root.value_int "HardwareID") d2 (root.value_int "RawValueEmpty")
        (root.value_int "RawValueFull")).map clamp_level = some (FVal.fin f2) ∧
      mopeka_update_level (root.set_int "RawValue" d1) =
        [Write.ble_dbus_set_int "Level" (some n1),
          Write.veItemOwnerSet "Remaining" (FVal.fin (f1 * c))] ∧
      mopeka_update_level (root.set_int "RawValue" d2) =
        [Write.ble_dbus_set_int "Level" (some n2),
          Write.veItemOwnerSet "Remaining" (FVal.fin (f2 * c))] ∧
      (root.value_int "HardwareID" ∉ ([4, 10, 11] : List Int) →
        f1 ≤ f2 ∧ n1 ≤ n2 ∧ f1 * c ≤ f2 * c) ∧
      (root.value_int "HardwareID" ∈ ([4, 10, 11] : List Int) →
        f2 ≤ f1 ∧ n2 ≤ n1 ∧ f2 * c ≤ f1 * c) := by
  obtain ⟨hf1, hw1⟩ := update_level_set_raw_value root c d1 hc hv
  obtain ⟨hf2, hw2⟩ := update_level_set_raw_value root c d2 hc hv
  refine ⟨_, _, _, _, hf1, hf2, hw1, hw2, ?_, ?_⟩
  · intro hb
    have hlt : root.value_int "RawValueEmpty" < root.value_int "RawValueFull" := by
      rcases hv with hv | hv
      · exact hv.2
      · exact absurd hv.1 hb
    have hm := spec_fraction_bottom_up_mono _ d1 d2 _ _ hb hlt hd
    exact ⟨hm, round_half_even_mono _ _ (by linarith), mul_le_mul_of_nonneg_right hm hc0⟩
  · intro ht
    have hlt : root.value_int "RawValueFull" < root.value_int "RawValueEmpty" := by
      rcases hv with hv | hv
      · exact absurd ht hv.1
      · exact hv.2
    have hm := spec_fraction_top_down_mono _ d1 d2 _ _ ht hlt hd
    exact ⟨hm, round_half_even_mono _ _ (by linarith), mul_le_mul_of_nonneg_right hm hc0⟩

theorem update_level_monotone_witness :
    sample_root_top_down.capacity = some (2 / 10) ∧ (0 : ℚ) ≤ 2 / 10 ∧ (5 : Int) ≤ 9 ∧
    sample_root_top_down.value_int "HardwareID" ∈ ([4, 10, 11] : List Int) ∧
    sample_root_top_down.value_int "RawValueFull" <
      sample_root_top_down.value_int "RawValueEmpty" ∧
    ∃ (f1 f2 : ℚ) (n1 n2 : Int),
      (level_quotient (sample_root_top_down.value_int "HardwareID") 5
        (sample_root_top_down.value_int "RawValueEmpty")
        (sample_root_top_down.value_int "RawValueFull")).map clamp_level = some (FVal.fin f1) ∧
      (level_quotient (sample_root_top_down.value_int "HardwareID") 9
        (sample_root_top_down.value_int "RawValueEmpty")
        (sample_root_top_down.value_int "RawValueFull")).map clamp_level = some (FVal.fin f2) ∧
      mopeka_update_level (sample_root_top_down.set_int "RawValue" 5) =
        [Write.ble_dbus_set_int "Level" (some n1),
          Write.veItemOwnerSet "Remaining" (FVal.fin (f1 * (2 / 10)))] ∧
      mopeka_update_level (sample_root_top_down.set_int "RawValue" 9) =
        [Write.ble_dbus_set_int "Level" (some n2),
          Write.veItemOwnerSet "Remaining" (FVal.fin (f2 * (2 / 10)))] ∧
      (sample_root_top_down.value_int "HardwareID" ∉ ([4, 10, 11] : List Int) →
        f1 ≤ f2 ∧ n1 ≤ n2 ∧ f1 * (2 / 10) ≤ f2 * (2 / 10)) ∧
      (sample_root_top_down.value_int "HardwareID" ∈ ([4, 10, 11] : List Int) →
        f2 ≤ f1 ∧ n2 ≤ n1 ∧ f2 * (2 / 10) ≤ f1 * (2 / 10)) :=
  ⟨rfl, by norm_num, by decide, by decide, by decide,
    update_level_monotone sample_root_top_down (2 / 10) 5 9 rfl (by norm_num) (by decide)
      (Or.inr ⟨by decide, by decide⟩)⟩

/-! ### Sign of the scale -/

theorem mopeka_scale_butane_nonneg (root : Root) (T : Int) (hT0 : 0 ≤ T)
    (hb : 0 ≤ root.value_int "ButaneRatio") : 0 ≤ mopeka_scale_butane root T := by
  have ht : (0 : ℚ) ≤ (T : ℚ) := by exact_mod_cast hT0
  have hr : (0 : ℚ) ≤ (root.value_int "ButaneRatio" : ℚ) := by exact_mod_cast hb
  simp only [mopeka_scale_butane, mopeka_coefs_butane, List.getD_cons_zero, List.getD_cons_succ]
  have h1 : (0 : ℚ) ≤ (root.value_int "ButaneRatio" : ℚ) / 100.0 := by
    apply div_nonneg hr; norm_num
  have h2 := mul_nonneg h1 ht
  have h3 : (0 : ℚ) ≤ 0.03615 * ((root.value_int "ButaneRatio" : ℚ) / 100.0) :=
    mul_nonneg (by norm_num) h1
  have h4 : (0 : ℚ) ≤ 0.000815 * ((root.value_int "ButaneRatio" : ℚ) / 100.0) * (T : ℚ) := by
    rw [mul_assoc]; exact mul_nonneg (by norm_num) h2
  linarith

theorem mopeka_scale_pos (root : Root) (hwid fluid_type T : Int) (scale : ℚ)
    (hT0 : 0 ≤ T) (hT1 : T ≤ 127) (hb : 0 ≤ root.value_int "ButaneRatio")
    (hs : mopeka_scale root hwid fluid_type T = some scale) : 0 < scale := by
  have ht0 : (0 : ℚ) ≤ (T : ℚ) := by exact_mod_cast hT0
  have ht1 : (T : ℚ) ≤ 127 := by exact_mod_cast hT1
  have hsq : (0 : ℚ) ≤ (T : ℚ) * (T : ℚ) := mul_nonneg ht0 ht0
  have hsq1 : (T : ℚ) * (T : ℚ) ≤ 127 * (T : ℚ) := mul_le_mul_of_nonneg_right ht1 ht0
  have hbl := mopeka_scale_butane_nonneg root T hT0 hb
  unfold mopeka_scale at hs
  split_ifs at hs
  all_goals
    simp only [Option.some.injEq, mopeka_coefs_lpg, mopeka_coefs_h2o, mopeka_coefs_gasoline,
      mopeka_coefs_air, List.getD_cons_zero, List.getD_cons_succ] at hs
    rw [← hs]
    norm_num
    nlinarith

/-- C18: when `T = Temperature + 40` lies in [0,127] and the butane ratio is
not negative (in particular when it lies in [0,100]), every scale the
translator can compute is strictly positive; hence the distance is not
negative, is zero only when the effective raw value is zero, and increases
strictly with the effective raw value. -/
theorem xlate_level_scale_positive (root : Root)
    (hT0 : 0 ≤ root.value_int "Temperature" + 40)
    (hT1 : root.value_int "Temperature" + 40 ≤ 127)
    (hb : 0 ≤ root.value_int "ButaneRatio") :
    (∀ scale : ℚ,
      mopeka_scale root (root.value_int "HardwareID") (root.value_int "FluidType")
        (root.value_int "Temperature" + 40) = some scale → 0 < scale) ∧
    (∀ (rv : Nat) (d : ℚ), mopeka_xlate_level root rv = some d →
      0 ≤ d ∧ (d = 0 ↔ rv_effective (root.value_int "TankLevelExtension") rv = 0)) ∧
    (∀ (rv1 rv2 : Nat) (d1 d2 : ℚ),
      mopeka_xlate_level root rv1 = some d1 → mopeka_xlate_level root rv2 = some d2 →
      rv_effective (root.value_int "TankLevelExtension") rv1 <
        rv_effective (root.value_int "TankLevelExtension") rv2 → d1 < d2) := by
  have hpos : ∀ scale : ℚ,
      mopeka_scale root (root.value_int "HardwareID") (root.value_int "FluidType")
        (root.value_int "Temperature" + 40) = some scale → 0 < scale :=
    fun scale hs => mopeka_scale_pos root _ _ _ scale hT0 hT1 hb hs
  have hx : ∀ (rv : Nat) (d : ℚ), mopeka_xlate_level root rv = some d →
      ∃ scale : ℚ, 0 < scale ∧
        d = (rv_effective (root.value_int "TankLevelExtension") rv : ℚ) * scale / 10 := by
    intro rv d h
    unfold mopeka_xlate_level at h
    dsimp only at h
    cases hs : mopeka_scale root (root.value_int "HardwareID") (root.value_int "FluidType")
        (root.value_int "Temperature" + 40) with
    | none => rw [hs] at h; simp at h
    | some scale =>
      rw [hs] at h
      simp only [Option.some.injEq] at h
      exact ⟨scale, hpos scale hs, h.symm⟩
  have hsame : ∀ (rv1 rv2 : Nat) (d1 d2 : ℚ),
      mopeka_xlate_level root rv1 = some d1 → mopeka_xlate_level root rv2 = some d2 →
      ∃ scale : ℚ, 0 < scale ∧
        d1 = (rv_effective (root.value_int "TankLevelExtension") rv1 : ℚ) * scale / 10 ∧
        d2 = (rv_effective (root.value_int "TankLevelExtension") rv2 : ℚ) * scale / 10 := by
    intro rv1 rv2 d1 d2 h1 h2
    unfold mopeka_xlate_level at h1 h2
    dsimp only at h1 h2
    cases hs : mopeka_scale root (root.value_int "HardwareID") (root.value_int "FluidType")
        (root.value_int "Temperature" + 40) with
    | none => rw [hs] at h1; simp at h1
    | some scale =>
      rw [hs] at h1 h2
      simp only [Option.some.injEq] at h1 h2
      exact ⟨scale, hpos scale hs, h1.symm, h2.symm⟩
  refine ⟨hpos, ?_, ?_⟩
  · intro rv d h
    obtain ⟨scale, hs, rfl⟩ := hx rv d h
    have he : (0 : ℚ) ≤ (rv_effective (root.value_int "TankLevelExtension") rv : ℚ) :=
      Nat.cast_nonneg _
    refine ⟨by positivity, ?_, ?_⟩
    · intro h0
      have h1 : (rv_effective (root.value_int "TankLevelExtension") rv : ℚ) * scale = 0 := by
        linarith
      rcases mul_eq_zero.mp h1 with h2 | h2
      · exact_mod_cast h2
      · linarith
    · intro h0
      rw [h0]
      simp
  · intro rv1 rv2 d1 d2 h1 h2 hlt
    obtain ⟨scale, hs, rfl, rfl⟩ := hsame rv1 rv2 d1 d2 h1 h2
    have hq : (rv_effective (root.value_int "TankLevelExtension") rv1 : ℚ) <
        (rv_effective (root.value_int "TankLevelExtension") rv2 : ℚ) := by exact_mod_cast hlt
    have := mul_lt_mul_of_pos_right hq hs
    linarith

theorem xlate_level_scale_positive_witness :
    (0 : Int) ≤ sample_root_lpg.value_int "Temperature" + 40 ∧
    sample_root_lpg.value_int "Temperature" + 40 ≤ 127 ∧
    0 ≤ sample_root_lpg.value_int "ButaneRatio" ∧
    (∀ scale : ℚ,
      mopeka_scale sample_root_lpg (sample_root_lpg.value_int "HardwareID")
        (sample_root_lpg.value_int "FluidType")
        (sample_root_lpg.value_int "Temperature" + 40) = some scale → 0 < scale) :=
  ⟨by decide, by decide, by decide,
    (xlate_level_scale_positive sample_root_lpg (by decide) (by decide) (by decide)).1⟩

/-! ### The handler after acceptance -/

/-- C15 as stated fails: the frame of a Universal sensor (id 12) with the
default `FluidType` 0 makes the translator fail, and the handler still runs
`mopeka_update_level` and `ble_dbus_update` and returns 0. -/
theorem handle_mfg_xlate_failure_counterexample :
    (∀ rv : Nat, mopeka_xlate_level (root_of [("HardwareID", 12), ("FluidType", 0)] none) rv = none) ∧
    mopeka_handle_mfg sample_env sample_addr (sample_frame 12) 10 =
      ⟨Exit.done, [Call.ble_dbus_create "665544a1b2c3" 12,
        Call.ble_dbus_set_name "Mopeka Universal A1:B2:",
        Call.ble_dbus_set_regs (sample_frame 12) 10, Call.mopeka_update_level,
        Call.ble_dbus_update]⟩ ∧
    (mopeka_handle_mfg sample_env sample_addr (sample_frame 12) 10).ret = 0 := by
  refine ⟨fun rv => ?_, by decide, by decide⟩
  rw [xlate_level_fails_iff]
  right
  decide

/-- C15, amended: for every accepted, enabled frame, whatever the translator
does on it, the handler calls `ble_dbus_set_regs`, without using its result,
then `mopeka_update_level` and `ble_dbus_update`, and returns 0. -/
theorem handle_mfg_accepted_runs_level (env : Env) (addr : bdaddr_t) (buf : List (Fin 256))
    (hlen : buf.length = 10)
    (hid : (buf.get ⟨5, by omega⟩, buf.get ⟨6, by omega⟩, buf.get ⟨7, by omega⟩) =
      (addr.b 2, addr.b 1, addr.b 0))
    (hhw : byte_at buf 0 ∈ ([3, 4, 5, 8, 9, 10, 11, 12] : List Int))
    (hcreate : ∀ (dev : String) (hwid : Int), env.create_ok dev hwid = true)
    (hen : ∀ dev : String, env.enabled dev = true) :
    (mopeka_handle_mfg env addr buf 10).exit = Exit.done ∧
    (mopeka_handle_mfg env addr buf 10).ret = 0 ∧
    ∃ (dev name : String), (mopeka_handle_mfg env addr buf 10).calls =
      [Call.ble_dbus_create dev (byte_at buf 0), Call.ble_dbus_set_name name,
        Call.ble_dbus_set_regs buf 10, Call.mopeka_update_level, Call.ble_dbus_update] := by
  have h5 : buf.getD 5 0 = buf.get ⟨5, by omega⟩ := by
    rw [List.get_eq_getElem]; exact List.getD_eq_getElem buf 0 (by omega)
  have h6 : buf.getD 6 0 = buf.get ⟨6, by omega⟩ := by
    rw [List.get_eq_getElem]; exact List.getD_eq_getElem buf 0 (by omega)
  have h7 : buf.getD 7 0 = buf.get ⟨7, by omega⟩ := by
    rw [List.get_eq_getElem]; exact List.getD_eq_getElem buf 0 (by omega)
  simp only [Prod.mk.injEq] at hid
  have hc : ¬ (byte_at buf (5 + 0) ≠ ((addr.b 2).val : Int) ∨
      byte_at buf (5 + 1) ≠ ((addr.b 1).val : Int) ∨
      byte_at buf (5 + 2) ≠ ((addr.b 0).val : Int)) := by
    simp only [byte_at, Nat.add_zero, h5, h6, h7, hid.1, hid.2.1, hid.2.2, ne_eq,
      not_true_eq_false, or_self, not_false_eq_true]
  obtain ⟨t, ht⟩ : ∃ t, hwid_type (byte_at buf 0) = some t := by
    simp only [List.mem_cons, List.mem_singleton, List.not_mem_nil, or_false] at hhw
    unfold hwid_type
    simp only [HW_ID_PRO, HW_ID_PRO_200, HW_ID_PRO_H2O, HW_ID_PRO_PLUS_BLE, HW_ID_PRO_PLUS_CELL,
      HW_ID_TOPDOWN_BLE, HW_ID_TOPDOWN_CELL, HW_ID_UNIVERSAL]
    split_ifs
    all_goals first | exact ⟨_, rfl⟩ | omega
  unfold mopeka_handle_mfg
  simp only [ne_eq, not_true_eq_false, if_false, hc, ht, hcreate, hen, Handled.ret, Exit.code,
    List.cons.injEq, Call.ble_dbus_create.injEq, Call.ble_dbus_set_name.injEq, and_true,
    true_and, exists_and_left, exists_eq', exists_eq_left']

theorem handle_mfg_accepted_runs_level_witness :
    (sample_frame 9).length = 10 ∧
    byte_at (sample_frame 9) 0 ∈ ([3, 4, 5, 8, 9, 10, 11, 12] : List Int) ∧
    (mopeka_handle_mfg sample_env sample_addr (sample_frame 9) 10).exit = Exit.done ∧
    (mopeka_handle_mfg sample_env sample_addr (sample_frame 9) 10).ret = 0 ∧
    ∃ (dev name : String), (mopeka_handle_mfg sample_env sample_addr (sample_frame 9) 10).calls =
      [Call.ble_dbus_create dev (byte_at (sample_frame 9) 0), Call.ble_dbus_set_name name,
        Call.ble_dbus_set_regs (sample_frame 9) 10, Call.mopeka_update_level,
        Call.ble_dbus_update] :=
  ⟨by decide, by decide,
    handle_mfg_accepted_runs_level sample_env sample_addr (sample_frame 9) (by decide)
      (by decide) (by decide) (fun _ _ => rfl) (fun _ => rfl)⟩

/-- C20: evaluation of the handler on a frame of a Topdown Cell sensor
(id 11) with identity bytes `a1 b2 c3`.  The formatted text
`Mopeka Topdown Cell A1:B2:C3` has 28 characters, `snprintf` keeps 23 of them
in `name[24]`, and the name passed to `ble_dbus_set_name` ends in `A1:`; the
type strings of the ids 8, 9, 10, 11 and 12 all give more than 23 characters. -/
theorem handle_mfg_name_truncated :
    hwid_type 11 = some "Topdown Cell" ∧
    ("Mopeka " ++ "Topdown Cell" ++ " " ++ fmt_02x true 0xa1 ++ ":" ++ fmt_02x true 0xb2 ++ ":" ++
      fmt_02x true 0xc3) = "Mopeka Topdown Cell A1:B2:C3" ∧
    "Mopeka Topdown Cell A1:B2:C3".length = 28 ∧
    snprintf 24 "Mopeka Topdown Cell A1:B2:C3" = "Mopeka Topdown Cell A1:" ∧
    (mopeka_handle_mfg sample_env sample_addr (sample_frame 11) 10).calls =
      [Call.ble_dbus_create "665544a1b2c3" 11,
        Call.ble_dbus_set_name "Mopeka Topdown Cell A1:",
        Call.ble_dbus_set_regs (sample_frame 11) 10, Call.mopeka_update_level,
        Call.ble_dbus_update] ∧
    (∀ hwid ∈ ([8, 9, 10, 11, 12] : List Int),
      ∃ t : String, hwid_type hwid = some t ∧ 23 < 7 + t.length + 1 + 8) := by
  refine ⟨by decide, by decide, by decide, by decide, by decide, ?_⟩
  intro hwid h
  simp only [List.mem_cons, List.mem_singleton, List.not_mem_nil, or_false] at h
  rcases h with h | h | h | h | h <;> subst h
  · exact ⟨"Pro+ BLE", by decide, by decide⟩
  · exact ⟨"Pro+ Cell", by decide, by decide⟩
  · exact ⟨"Topdown BLE", by decide, by decide⟩
  · exact ⟨"Topdown Cell", by decide, by decide⟩
  · exact ⟨"Universal", by decide, by decide⟩

/-! ### The register table -/

theorem xlate_level_congr (root root2 : Root) (rv : Nat)
    (h1 : root.value_int "FluidType" = root2.value_int "FluidType")
    (h2 : root.value_int "HardwareID" = root2.value_int "HardwareID")
    (h3 : root.value_int "Temperature" = root2.value_int "Temperature")
    (h4 : root.value_int "TankLevelExtension" = root2.value_int "TankLevelExtension")
    (h5 : root.value_int "ButaneRatio" = root2.value_int "ButaneRatio") :
    mopeka_xlate_level root rv = mopeka_xlate_level root2 rv := by
  unfold mopeka_xlate_level mopeka_scale mopeka_scale_butane
  rw [h1, h2, h3, h4, h5]

/-- C16: the translator reads the root through the five items of
`xlate_reads` only; those of them that the table declares are `HardwareID`,
`Temperature` and `TankLevelExtension`, at the indices 0, 3 and 1, each
strictly below the index 5 of `RawValue`, so all three are among the
descriptors that precede `RawValue` in table order. -/
theorem adv_order_before_raw_value :
    (∀ (root root2 : Root) (rv : Nat),
      (∀ n ∈ xlate_reads, root.value_int n = root2.value_int n) →
      mopeka_xlate_level root rv = mopeka_xlate_level root2 rv) ∧
    xlate_reads.filter (fun n => decide (n ∈ adv_names)) =
      ["HardwareID", "Temperature", "TankLevelExtension"] ∧
    adv_names.indexOf "HardwareID" = 0 ∧
    adv_names.indexOf "TankLevelExtension" = 1 ∧
    adv_names.indexOf "Temperature" = 3 ∧
    adv_names.indexOf "RawValue" = 5 ∧
    (∀ n ∈ xlate_reads, n ∈ adv_names → adv_names.indexOf n < adv_names.indexOf "RawValue") ∧
    (∀ n ∈ xlate_reads, n ∈ adv_names → n ∈ (mopeka_adv.take 5).map reg_info.name) ∧
    (∀ r ∈ mopeka_adv, r.xlate.isSome → r.name = "RawValue") := by
  refine ⟨?_, by decide, by decide, by decide, by decide, by decide, by decide, by decide, ?_⟩
  · intro root root2 rv h
    exact xlate_level_congr root root2 rv (h "FluidType" (by decide))
      (h "HardwareID" (by decide)) (h "Temperature" (by decide))
      (h "TankLevelExtension" (by decide)) (h "ButaneRatio" (by decide))
  · intro r hr
    simp only [mopeka_adv, List.mem_cons, List.mem_singleton, List.not_mem_nil, or_false] at hr
    rcases hr with h | h | h | h | h | h | h | h | h <;> subst h <;> simp

/-! ### The field decoder -/

theorem set_reg_value_ne (it : Items) (r : reg_info) (buf : List (Fin 256)) (n : String)
    (h : n ≠ r.name) : (ble_dbus_set_reg it r buf).value n = it.value n := by
  unfold ble_dbus_set_reg
  dsimp only
  split
  · split
    · rfl
    · simp [Items.set, h]
  · simp [Items.set, h]

theorem set_reg_value_eq (it : Items) (r : reg_info) (buf : List (Fin 256))
    (h : r.xlate = none) :
    (ble_dbus_set_reg it r buf).value r.name = reg_scaled r (reg_masked r buf) := by
  unfold ble_dbus_set_reg
  dsimp only
  rw [h]
  simp [Items.set]

theorem set_reg_capacity (it : Items) (r : reg_info) (buf : List (Fin 256)) :
    (ble_dbus_set_reg it r buf).capacity = it.capacity := by
  unfold ble_dbus_set_reg
  dsimp only
  split
  · split <;> rfl
  · rfl

theorem split_byte (b : Nat) (hb : b < 256) :
    (b / 2 ^ 0 &&& 0x7f) + 128 * (b / 2 ^ 7 &&& 1) = b ∧
    b / 2 ^ 0 &&& 0x7f ≤ 127 ∧ b / 2 ^ 7 &&& 1 ≤ 1 := by
  have h7 : (0x7f : Nat) = 2 ^ 7 - 1 := by norm_num
  have h1 : (1 : Nat) = 2 ^ 1 - 1 := by norm_num
  rw [h7, Nat.and_pow_two_sub_one_eq_mod]
  nth_rewrite 2 [h1]
  nth_rewrite 4 [h1]
  rw [Nat.and_pow_two_sub_one_eq_mod]
  norm_num
  omega

theorem split_word (w : Nat) (hw : w < 65536) :
    (w / 2 ^ 0 &&& 0x3fff) + 16384 * (w / 2 ^ 14 &&& 3) = w ∧
    w / 2 ^ 0 &&& 0x3fff ≤ 16383 ∧ w / 2 ^ 14 &&& 3 ≤ 3 := by
  have h14 : (0x3fff : Nat) = 2 ^ 14 - 1 := by norm_num
  have h3 : (3 : Nat) = 2 ^ 2 - 1 := by norm_num
  rw [h14, Nat.and_pow_two_sub_one_eq_mod]
  nth_rewrite 1 [h3]
  nth_rewrite 2 [h3]
  rw [Nat.and_pow_two_sub_one_eq_mod]
  norm_num
  omega

theorem set_reg_value_at (it : Items) (r : reg_info) (buf : List (Fin 256)) (n : String)
    (hn : n = r.name) (h : r.xlate = none) :
    (ble_dbus_set_reg it r buf).value n = reg_scaled r (reg_masked r buf) := by
  subst hn
  exact set_reg_value_eq it r buf h

theorem set_regs_values (it : Items) (buf : List (Fin 256)) :
    (ble_dbus_set_regs it mopeka_adv buf).value "HardwareID" =
      (((buf.getD 0 0).val / 2 ^ 0 &&& 0x7f : Nat) : ℚ) ∧
    (ble_dbus_set_regs it mopeka_adv buf).value "TankLevelExtension" =
      (((buf.getD 0 0).val / 2 ^ 7 &&& 1 : Nat) : ℚ) ∧
    (ble_dbus_set_regs it mopeka_adv buf).value "Temperature" =
      (((buf.getD 2 0).val / 2 ^ 0 &&& 0x7f : Nat) : ℚ) - 40 ∧
    (ble_dbus_set_regs it mopeka_adv buf).value "SyncButton" =
      (((buf.getD 2 0).val / 2 ^ 7 &&& 1 : Nat) : ℚ) ∧
    (ble_dbus_set_regs it mopeka_adv buf).value "Quality" =
      ((((buf.getD 3 0).val + 256 * (buf.getD 4 0).val) / 2 ^ 14 &&& 3 : Nat) : ℚ) := by
  simp only [ble_dbus_set_regs, mopeka_adv, List.foldl]
  refine ⟨?_, ?_, ?_, ?_, ?_⟩
  · rw [set_reg_value_ne _ _ _ "HardwareID" (by decide),
      set_reg_value_ne _ _ _ "HardwareID" (by decide),
      set_reg_value_ne _ _ _ "HardwareID" (by decide),
      set_reg_value_ne _ _ _ "HardwareID" (by decide),
      set_reg_value_ne _ _ _ "HardwareID" (by decide),
      set_reg_value_ne _ _ _ "HardwareID" (by decide),
      set_reg_value_ne _ _ _ "HardwareID" (by decide),
      set_reg_value_ne _ _ _ "HardwareID" (by decide),
      set_reg_value_at _ _ _ "HardwareID" rfl rfl]
    simp [reg_scaled, reg_masked, reg_load]
  · rw [set_reg_value_ne _ _ _ "TankLevelExtension" (by decide),
      set_reg_value_ne _ _ _ "TankLevelExtension" (by decide),
      set_reg_value_ne _ _ _ "TankLevelExtension" (by decide),
      set_reg_value_ne _ _ _ "TankLevelExtension" (by decide),
      set_reg_value_ne _ _ _ "TankLevelExtension" (by decide),
      set_reg_value_ne _ _ _ "TankLevelExtension" (by decide),
      set_reg_value_ne _ _ _ "TankLevelExtension" (by decide),
      set_reg_value_at _ _ _ "TankLevelExtension" rfl rfl]
    simp [reg_scaled, reg_masked, reg_load]
  · rw [set_reg_value_ne _ _ _ "Temperature" (by decide),
      set_reg_value_ne _ _ _ "Temperature" (by decide),
      set_reg_value_ne _ _ _ "Temperature" (by decide),
      set_reg_value_ne _ _ _ "Temperature" (by decide),
      set_reg_value_ne _ _ _ "Temperature" (by decide),
      set_reg_value_at _ _ _ "Temperature" rfl rfl]
    simp [reg_scaled, reg_masked, reg_load]
    ring
  · rw [set_reg_value_ne _ _ _ "SyncButton" (by decide),
      set_reg_value_ne _ _ _ "SyncButton" (by decide),
      set_reg_value_ne _ _ _ "SyncButton" (by decide),
      set_reg_value_ne _ _ _ "SyncButton" (by decide),
      set_reg_value_at _ _ _ "SyncButton" rfl rfl]
    simp [reg_scaled, reg_masked, reg_load]
  · rw [set_reg_value_ne _ _ _ "Quality" (by decide),
      set_reg_value_ne _ _ _ "Quality" (by decide),
      set_reg_value_at _ _ _ "Quality" rfl rfl]
    simp [reg_scaled, reg_masked, reg_load]

/-- C17: for every ten byte payload the decoded registers split their source
integers without loss or overlap: `HardwareID + 128 * TankLevelExtension` is
byte 0, `(Temperature + 40) + 128 * SyncButton` is byte 2, and the masked raw
value plus `16384 * Quality` is the 16-bit integer read at offset 3; the
parts lie in [0,127], [0,127], [0,16383], [0,3] and the two flags in {0,1}. -/
theorem set_regs_lossless (it : Items) (buf : List (Fin 256)) (hlen : buf.length = 10) :
    ∃ (hw ext t sync raw q : Nat),
      (ble_dbus_set_regs it mopeka_adv buf).value "HardwareID" = (hw : ℚ) ∧
      (ble_dbus_set_regs it mopeka_adv buf).value "TankLevelExtension" = (ext : ℚ) ∧
      (ble_dbus_set_regs it mopeka_adv buf).value "Temperature" + 40 = (t : ℚ) ∧
      (ble_dbus_set_regs it mopeka_adv buf).value "SyncButton" = (sync : ℚ) ∧
      (ble_dbus_set_regs it mopeka_adv buf).value "Quality" = (q : ℚ) ∧
      (∀ r ∈ mopeka_adv, r.name = "RawValue" →
        reg_masked r buf = raw ∧ raw + 16384 * q = reg_load r buf) ∧
      hw + 128 * ext = (buf.get ⟨0, by omega⟩).val ∧
      t + 128 * sync = (buf.get ⟨2, by omega⟩).val ∧
      hw ≤ 127 ∧ t ≤ 127 ∧ raw ≤ 16383 ∧ q ≤ 3 ∧ ext ≤ 1 ∧ sync ≤ 1 := by
  have g0 : buf.getD 0 0 = buf.get ⟨0, by omega⟩ := by
    rw [List.get_eq_getElem]; exact List.getD_eq_getElem buf 0 (by omega)
  have g2 : buf.getD 2 0 = buf.get ⟨2, by omega⟩ := by
    rw [List.get_eq_getElem]; exact List.getD_eq_getElem buf 0 (by omega)
  obtain ⟨v0, v1, v2, v3, v4⟩ := set_regs_values it buf
  obtain ⟨a0, a1, a2⟩ := split_byte (buf.getD 0 0).val (buf.getD 0 0).isLt
  obtain ⟨c0, c1, c2⟩ := split_byte (buf.getD 2 0).val (buf.getD 2 0).isLt
  have hw16 : (buf.getD 3 0).val + 256 * (buf.getD 4 0).val < 65536 := by
    have h3 := (buf.getD 3 0).isLt
    have h4 := (buf.getD 4 0).isLt
    omega
  obtain ⟨w0, w1, w2⟩ := split_word _ hw16
  refine ⟨_, _, _, _, _, _, v0, v1, ?_, v3, v4, ?_, ?_, ?_, a1, c1, w1, w2, a2, c2⟩
  · rw [v2]; ring
  · intro r hr hname
    simp only [mopeka_adv, List.mem_cons, List.mem_singleton, List.not_mem_nil, or_false] at hr
    rcases hr with h | h | h | h | h | h | h | h | h <;> subst h <;>
      first
        | exact absurd hname (by decide)
        | exact ⟨by simp [reg_masked, reg_load], by simpa [reg_load] using w0⟩
  · rw [← g0]; exact a0
  · rw [← g2]; exact c0

theorem set_regs_lossless_witness :
    (sample_frame 0x83).length = 10 ∧
    ∃ (hw ext t sync raw q : Nat),
      (ble_dbus_set_regs sample_settings mopeka_adv (sample_frame 0x83)).value "HardwareID" =
        (hw : ℚ) ∧
      (ble_dbus_set_regs sample_settings mopeka_adv (sample_frame 0x83)).value
        "TankLevelExtension" = (ext : ℚ) ∧
      (ble_dbus_set_regs sample_settings mopeka_adv (sample_frame 0x83)).value "Temperature" + 40 =
        (t : ℚ) ∧
      (ble_dbus_set_regs sample_settings mopeka_adv (sample_frame 0x83)).value "SyncButton" =
        (sync : ℚ) ∧
      (ble_dbus_set_regs sample_settings mopeka_adv (sample_frame 0x83)).value "Quality" =
        (q : ℚ) ∧
      (∀ r ∈ mopeka_adv, r.name = "RawValue" →
        reg_masked r (sample_frame 0x83) = raw ∧
        raw + 16384 * q = reg_load r (sample_frame 0x83)) ∧
      hw + 128 * ext = ((sample_frame 0x83).get ⟨0, by decide⟩).val ∧
      t + 128 * sync = ((sample_frame 0x83).get ⟨2, by decide⟩).val ∧
      hw ≤ 127 ∧ t ≤ 127 ∧ raw ≤ 16383 ∧ q ≤ 3 ∧ ext ≤ 1 ∧ sync ≤ 1 :=
  ⟨by decide, set_regs_lossless sample_settings (sample_frame 0x83) (by decide)⟩

/-! ### Integer reading of item values -/

theorem float_to_int_intCast (n : Int) : float_to_int (n : ℚ) = n := by
  unfold float_to_int
  split_ifs <;> simp

theorem float_to_int_eq (x : ℚ) (n : Int) (h0 : 0 ≤ x) (h1 : (n : ℚ) ≤ x)
    (h2 : x < (n : ℚ) + 1) : float_to_int x = n := by
  unfold float_to_int
  rw [if_pos h0, Int.floor_eq_iff]
  exact ⟨h1, h2⟩

/-! ### The end-to-end example -/

theorem set_reg_value_xlate (it : Items) (r : reg_info) (buf : List (Fin 256)) (n : String)
    (xl : Root → Nat → Option ℚ) (hn : n = r.name) (h : r.xlate = some xl) :
    (ble_dbus_set_reg it r buf).value n =
      match xl (it.root float_to_int) (reg_masked r buf) with
      | none => it.value n
      | some d => d := by
  subst hn
  unfold ble_dbus_set_reg
  dsimp only
  rw [h]
  dsimp only
  cases xl (it.root float_to_int) (reg_masked r buf) with
  | none => rfl
  | some d => simp [Items.set]

theorem set_regs_raw_value (it : Items) (buf : List (Fin 256)) :
    (ble_dbus_set_regs it mopeka_adv buf).value "RawValue" =
      match mopeka_xlate_level ((ble_dbus_set_regs it (mopeka_adv.take 5) buf).root float_to_int)
          (((buf.getD 3 0).val + 256 * (buf.getD 4 0).val) / 2 ^ 0 &&& 0x3fff) with
      | none => it.value "RawValue"
      | some d => d := by
  have hm : reg_masked ⟨.VE_UN16, 3, 0, 0x3fff, 0, 0, some mopeka_xlate_level, "RawValue",
      "veUnitcm"⟩ buf = ((buf.getD 3 0).val + 256 * (buf.getD 4 0).val) / 2 ^ 0 &&& 0x3fff := by
    simp [reg_masked, reg_load]
  simp only [ble_dbus_set_regs, mopeka_adv, List.take, List.foldl]
  rw [set_reg_value_ne _ _ _ "RawValue" (by decide),
    set_reg_value_ne _ _ _ "RawValue" (by decide),
    set_reg_value_ne _ _ _ "RawValue" (by decide),
    set_reg_value_xlate _ _ _ "RawValue" mopeka_xlate_level rfl rfl, hm,
    set_reg_value_ne _ _ _ "RawValue" (by decide),
    set_reg_value_ne _ _ _ "RawValue" (by decide),
    set_reg_value_ne _ _ _ "RawValue" (by decide),
    set_reg_value_ne _ _ _ "RawValue" (by decide),
    set_reg_value_ne _ _ _ "RawValue" (by decide)]

theorem set_regs_value_other (regs : List reg_info) (buf : List (Fin 256)) (n : String)
    (h : n ∉ regs.map reg_info.name) (it : Items) :
    (ble_dbus_set_regs it regs buf).value n = it.value n := by
  induction regs generalizing it with
  | nil => rfl
  | cons r rest ih =>
    simp only [List.map_cons, List.mem_cons, not_or] at h
    simp only [ble_dbus_set_regs, List.foldl_cons]
    have := ih h.2 (ble_dbus_set_reg it r buf)
    simp only [ble_dbus_set_regs] at this
    rw [this, set_reg_value_ne it r buf n h.1]

theorem set_regs_capacity (regs : List reg_info) (buf : List (Fin 256)) (it : Items) :
    (ble_dbus_set_regs it regs buf).capacity = it.capacity := by
  induction regs generalizing it with
  | nil => rfl
  | cons r rest ih =>
    simp only [ble_dbus_set_regs, List.foldl_cons]
    have := ih (ble_dbus_set_reg it r buf)
    simp only [ble_dbus_set_regs] at this
    rw [this, set_reg_capacity]

theorem set_regs_prefix_values (it : Items) (buf : List (Fin 256)) :
    (ble_dbus_set_regs it (mopeka_adv.take 5) buf).value "HardwareID" =
      (((buf.getD 0 0).val / 2 ^ 0 &&& 0x7f : Nat) : ℚ) ∧
    (ble_dbus_set_regs it (mopeka_adv.take 5) buf).value "TankLevelExtension" =
      (((buf.getD 0 0).val / 2 ^ 7 &&& 1 : Nat) : ℚ) ∧
    (ble_dbus_set_regs it (mopeka_adv.take 5) buf).value "Temperature" =
      (((buf.getD 2 0).val / 2 ^ 0 &&& 0x7f : Nat) : ℚ) - 40 := by
  simp only [ble_dbus_set_regs, mopeka_adv, List.take, List.foldl]
  refine ⟨?_, ?_, ?_⟩
  · rw [set_reg_value_ne _ _ _ "HardwareID" (by decide),
      set_reg_value_ne _ _ _ "HardwareID" (by decide),
      set_reg_value_ne _ _ _ "HardwareID" (by decide),
      set_reg_value_ne _ _ _ "HardwareID" (by decide),
      set_reg_value_at _ _ _ "HardwareID" rfl rfl]
    simp [reg_scaled, reg_masked, reg_load]
  · rw [set_reg_value_ne _ _ _ "TankLevelExtension" (by decide),
      set_reg_value_ne _ _ _ "TankLevelExtension" (by decide),
      set_reg_value_ne _ _ _ "TankLevelExtension" (by decide),
      set_reg_value_at _ _ _ "TankLevelExtension" rfl rfl]
    simp [reg_scaled, reg_masked, reg_load]
  · rw [set_reg_value_ne _ _ _ "Temperature" (by decide),
      set_reg_value_at _ _ _ "Temperature" rfl rfl]
    simp [reg_scaled, reg_masked, reg_load]
    ring

theorem sample_xlate_value :
    mopeka_xlate_level sample_root_example 500 = some (372927 / 10000) ∧
    mopeka_scale sample_root_example 5 0 65 = some (372927 / 500000) := by
  constructor
  · simp [mopeka_xlate_level, mopeka_scale, sample_root_example, root_of, rv_effective,
      mopeka_coefs_h2o, HW_ID_PRO, HW_ID_PRO_H2O]
    norm_num
  · simp [mopeka_scale, mopeka_coefs_h2o, HW_ID_PRO, HW_ID_PRO_H2O]
    norm_num

theorem sample_prefix_root :
    ((ble_dbus_set_regs sample_settings (mopeka_adv.take 5) (sample_frame 5)).root
      float_to_int).value_int "FluidType" = 0 ∧
    ((ble_dbus_set_regs sample_settings (mopeka_adv.take 5) (sample_frame 5)).root
      float_to_int).value_int "HardwareID" = 5 ∧
    ((ble_dbus_set_regs sample_settings (mopeka_adv.take 5) (sample_frame 5)).root
      float_to_int).value_int "Temperature" = 25 ∧
    ((ble_dbus_set_regs sample_settings (mopeka_adv.take 5) (sample_frame 5)).root
      float_to_int).value_int "TankLevelExtension" = 0 ∧
    ((ble_dbus_set_regs sample_settings (mopeka_adv.take 5) (sample_frame 5)).root
      float_to_int).value_int "ButaneRatio" = 0 := by
  obtain ⟨h1, h2, h3⟩ := set_regs_prefix_values sample_settings (sample_frame 5)
  have n1 : (((sample_frame 5).getD 0 0).val / 2 ^ 0 &&& 0x7f : Nat) = 5 := by decide
  have n2 : (((sample_frame 5).getD 0 0).val / 2 ^ 7 &&& 1 : Nat) = 0 := by decide
  have n3 : (((sample_frame 5).getD 2 0).val / 2 ^ 0 &&& 0x7f : Nat) = 65 := by decide
  rw [n1] at h1
  rw [n2] at h2
  rw [n3] at h3
  have f1 := set_regs_value_other (mopeka_adv.take 5) (sample_frame 5) "FluidType" (by decide)
    sample_settings
  have f2 := set_regs_value_other (mopeka_adv.take 5) (sample_frame 5) "ButaneRatio" (by decide)
    sample_settings
  have s1 : sample_settings.value "FluidType" = ((0 : Int) : ℚ) := by
    simp [sample_settings, items_of]
  have s2 : sample_settings.value "ButaneRatio" = ((0 : Int) : ℚ) := by
    simp [sample_settings, items_of]
  have e1 : ((5 : Nat) : ℚ) = ((5 : Int) : ℚ) := by norm_num
  have e2 : ((0 : Nat) : ℚ) = ((0 : Int) : ℚ) := by norm_num
  have e3 : ((65 : Nat) : ℚ) - 40 = ((25 : Int) : ℚ) := by norm_num
  simp only [Items.root]
  rw [f1, f2, h1, h2, h3, s1, s2, e1, e2, e3]
  simp only [float_to_int_intCast, and_self]

theorem sample_decoded_values :
    sample_decoded.value "HardwareID" = 5 ∧
    sample_decoded.value "TankLevelExtension" = 0 ∧
    sample_decoded.value "Temperature" = 25 ∧
    sample_decoded.value "SyncButton" = 0 ∧
    sample_decoded.value "RawValue" = 372927 / 10000 ∧
    sample_decoded.value "RawValueEmpty" = 0 ∧
    sample_decoded.value "RawValueFull" = 40 ∧
    sample_decoded.capacity = some (2 / 10) := by
  obtain ⟨h1, h2, h3, h4, _⟩ := set_regs_values sample_settings (sample_frame 5)
  have n1 : (((sample_frame 5).getD 0 0).val / 2 ^ 0 &&& 0x7f : Nat) = 5 := by decide
  have n2 : (((sample_frame 5).getD 0 0).val / 2 ^ 7 &&& 1 : Nat) = 0 := by decide
  have n3 : (((sample_frame 5).getD 2 0).val / 2 ^ 0 &&& 0x7f : Nat) = 65 := by decide
  have n4 : (((sample_frame 5).getD 2 0).val / 2 ^ 7 &&& 1 : Nat) = 0 := by decide
  have n5 : ((((sample_frame 5).getD 3 0).val + 256 * ((sample_frame 5).getD 4 0).val) / 2 ^ 0
      &&& 0x3fff : Nat) = 500 := by decide
  rw [n1] at h1
  rw [n2] at h2
  rw [n3] at h3
  rw [n4] at h4
  obtain ⟨p1, p2, p3, p4, p5⟩ := sample_prefix_root
  have hx : mopeka_xlate_level
      ((ble_dbus_set_regs sample_settings (mopeka_adv.take 5) (sample_frame 5)).root
        float_to_int) 500 = some (372927 / 10000) := by
    rw [xlate_level_congr _ sample_root_example 500 (by rw [p1]; rfl) (by rw [p2]; rfl)
      (by rw [p3]; rfl) (by rw [p4]; rfl) (by rw [p5]; rfl)]
    exact sample_xlate_value.1
  have h5 := set_regs_raw_value sample_settings (sample_frame 5)
  rw [n5, hx] at h5
  have f1 := set_regs_value_other mopeka_adv (sample_frame 5) "RawValueEmpty" (by decide)
    sample_settings
  have f2 := set_regs_value_other mopeka_adv (sample_frame 5) "RawValueFull" (by decide)
    sample_settings
  have s1 : sample_settings.value "RawValueEmpty" = 0 := by simp [sample_settings, items_of]
  have s2 : sample_settings.value "RawValueFull" = 40 := by simp [sample_settings, items_of]
  unfold sample_decoded
  refine ⟨by rw [h1]; norm_num, by rw [h2]; norm_num, by rw [h3]; norm_num,
    by rw [h4]; norm_num, h5, by rw [f1, s1], by rw [f2, s2], ?_⟩
  rw [set_regs_capacity]
  rfl

theorem sample_decoded_root :
    (sample_decoded.root float_to_int).value_int "HardwareID" = 5 ∧
    (sample_decoded.root float_to_int).value_int "Temperature" = 25 ∧
    (sample_decoded.root float_to_int).value_int "RawValue" = 37 ∧
    (sample_decoded.root float_to_int).value_int "RawValueEmpty" = 0 ∧
    (sample_decoded.root float_to_int).value_int "RawValueFull" = 40 ∧
    (sample_decoded.root float_to_int).capacity = some (2 / 10) := by
  obtain ⟨h1, _, h3, _, h5, h6, h7, h8⟩ := sample_decoded_values
  simp only [Items.root]
  rw [h1, h3, h5, h6, h7]
  refine ⟨?_, ?_, ?_, ?_, ?_, h8⟩
  · exact float_to_int_eq _ 5 (by norm_num) (by norm_num) (by norm_num)
  · exact float_to_int_eq _ 25 (by norm_num) (by norm_num) (by norm_num)
  · exact float_to_int_eq _ 37 (by norm_num) (by norm_num) (by norm_num)
  · exact float_to_int_eq _ 0 (by norm_num) (by norm_num) (by norm_num)
  · exact float_to_int_eq _ 40 (by norm_num) (by norm_num) (by norm_num)

theorem sample_decoded_level :
    (level_quotient 5 37 0 40).map clamp_level = some (FVal.fin (37 / 40)) ∧
    mopeka_update_level (sample_decoded.root float_to_int) =
      [Write.ble_dbus_set_int "Level" (some 92),
        Write.veItemOwnerSet "Remaining" (FVal.fin (37 / 200))] := by
  obtain ⟨h1, _, h3, h4, h5, h6⟩ := sample_decoded_root
  have hq : level_quotient 5 37 0 40 = some (FVal.fin (37 / 40)) := by
    norm_num [level_quotient, HW_ID_PRO_200, HW_ID_TOPDOWN_BLE, HW_ID_TOPDOWN_CELL, FVal.div]
  have hc : clamp_level (FVal.fin (37 / 40)) = FVal.fin (37 / 40) := by
    rw [clamp_level_fin]; norm_num
  have hf : ⌊(185 / 2 : ℚ)⌋ = 92 := by
    rw [Int.floor_eq_iff]; constructor <;> norm_num
  have hr : round_half_even (37 / 40 * 100) = 92 := by
    have h : (37 / 40 * 100 : ℚ) = 185 / 2 := by norm_num
    rw [h]
    unfold round_half_even
    rw [hf]
    norm_num
  constructor
  · rw [hq, Option.map_some', hc]
  · unfold mopeka_update_level
    simp only [h1, h3, h4, h5, h6, hq, hc, FVal.mul, lrintf, hr]
    norm_num

/-- C14 as stated fails on the frame of the example (id 5, temperature byte
65, raw value 500, settings `empty = 0`, `full = 40`, capacity 0.2): the
temperature the calibration uses is 65 and not 25, the decoded distance
37.2927 is more than 3 away from 33.66, and the published Level is 92, with
Remaining 0.185, and not 84. -/
theorem end_to_end_counterexample :
    byte_at (sample_frame 5) 0 = 5 ∧ byte_at (sample_frame 5) 2 = 65 ∧
    ((ble_dbus_set_regs sample_settings (mopeka_adv.take 5) (sample_frame 5)).root
      float_to_int).value_int "Temperature" + 40 ≠ 25 ∧
    3 < |sample_decoded.value "RawValue" - 3366 / 100| ∧
    Write.ble_dbus_set_int "Level" (some 84) ∉
      mopeka_update_level (sample_decoded.root float_to_int) := by
  obtain ⟨_, _, p3, _, _⟩ := sample_prefix_root
  obtain ⟨_, _, _, _, h5, _, _, _⟩ := sample_decoded_values
  refine ⟨by decide, by decide, by rw [p3]; decide, ?_, ?_⟩
  · rw [h5]
    rw [abs_of_nonneg (by norm_num)]
    norm_num
  · rw [sample_decoded_level.2]
    simp

/-- C14, amended: on the frame of the example the decoded Temperature is 25
and the temperature the calibration uses is 65; the scale is 0.745854 and the
decoded distance is 37.2927; with `empty = 0`, `full = 40` and capacity 0.2
the level calculation reads the distance as 37 and gives the fraction 0.925,
Level 92 and Remaining 0.185. -/
theorem end_to_end_example :
    sample_decoded.value "HardwareID" = 5 ∧
    sample_decoded.value "TankLevelExtension" = 0 ∧
    sample_decoded.value "SyncButton" = 0 ∧
    (∀ r ∈ mopeka_adv, r.name = "RawValue" → reg_masked r (sample_frame 5) = 500) ∧
    sample_decoded.value "Temperature" = 25 ∧
    ((ble_dbus_set_regs sample_settings (mopeka_adv.take 5) (sample_frame 5)).root
      float_to_int).value_int "Temperature" + 40 = 65 ∧
    mopeka_scale ((ble_dbus_set_regs sample_settings (mopeka_adv.take 5) (sample_frame 5)).root
      float_to_int) 5 0 65 = some (745854 / 1000000) ∧
    sample_decoded.value "RawValue" = 372927 / 10000 ∧
    (sample_decoded.root float_to_int).value_int "RawValue" = 37 ∧
    (level_quotient 5 37 0 40).map clamp_level = some (FVal.fin (925 / 1000)) ∧
    mopeka_update_level (sample_decoded.root float_to_int) =
      [Write.ble_dbus_set_int "Level" (some 92),
        Write.veItemOwnerSet "Remaining" (FVal.fin (185 / 1000))] := by
  obtain ⟨_, _, p3, _, _⟩ := sample_prefix_root
  obtain ⟨h1, h2, h3, h4, h5, _, _, _⟩ := sample_decoded_values
  obtain ⟨_, _, r3, _, _, _⟩ := sample_decoded_root
  obtain ⟨l1, l2⟩ := sample_decoded_level
  refine ⟨h1, h2, h4, ?_, h3, by rw [p3]; decide, ?_, h5, r3, ?_, ?_⟩
  · intro r hr hname
    simp only [mopeka_adv, List.mem_cons, List.mem_singleton, List.not_mem_nil, or_false] at hr
    rcases hr with h | h | h | h | h | h | h | h | h <;> subst h <;>
      first
        | exact absurd hname (by decide)
        | decide
  · have hs : mopeka_scale ((ble_dbus_set_regs sample_settings (mopeka_adv.take 5)
        (sample_frame 5)).root float_to_int) 5 0 65 = mopeka_scale sample_root_example 5 0 65 := by
      simp [mopeka_scale, HW_ID_PRO, HW_ID_PRO_H2O]
    rw [hs, sample_xlate_value.2]
    norm_num
  · rw [l1]; norm_num
  · rw [l2]; norm_num

/-! ### Integer reading of the geometry -/

theorem root_set_converted (conv : ℚ → Int) (hconv : ∀ n : Int, conv (n : ℚ) = n)
    (it : Items) (name : String) :
    (it.set name ((conv (it.value name) : Int) : ℚ)).root conv = it.root conv := by
  unfold Items.root Items.set
  congr 1
  funext n
  dsimp only
  split_ifs with h
  · rw [hconv, h]
  · rfl

theorem root_set_same_conversion (conv : ℚ → Int) (it : Items) (name : String) (d1 d2 : ℚ)
    (h : conv d1 = conv d2) : (it.set name d1).root conv = (it.set name d2).root conv := by
  unfold Items.root Items.set
  congr 1
  funext n
  dsimp only
  split_ifs
  · exact h
  · rfl

theorem update_level_items_eq (conv : ℚ → Int) (it : Items) :
    mopeka_update_level_items conv it = mopeka_update_level (it.root conv) := rfl

theorem update_level_items_half (conv : ℚ → Int) (hconv : ∀ n : Int, conv (n : ℚ) = n)
    (c : ℚ) :
    mopeka_update_level_items conv (sample_items_half.set_capacity c) =
      [Write.ble_dbus_set_int "Level" (some 50),
        Write.veItemOwnerSet "Remaining" (FVal.fin (1 / 2 * c))] := by
  have h3 : conv 3 = 3 := by simpa using hconv 3
  have h10 : conv 10 = 10 := by simpa using hconv 10
  have h0 : conv 0 = 0 := by simpa using hconv 0
  have h20 : conv 20 = 20 := by simpa using hconv 20
  have hq : level_quotient 3 10 0 20 = some (FVal.fin (1 / 2)) := by
    norm_num [level_quotient, HW_ID_PRO_200, HW_ID_TOPDOWN_BLE, HW_ID_TOPDOWN_CELL, FVal.div]
  have hc : clamp_level (FVal.fin (1 / 2)) = FVal.fin (1 / 2) := by
    rw [clamp_level_fin]; norm_num
  have hr : round_half_even (1 / 2 * 100) = 50 := by
    have h50 : (1 / 2 * 100 : ℚ) = ((50 : Int) : ℚ) := by norm_num
    rw [h50, round_half_even_intCast]
  have hv : mopeka_update_level_items conv (sample_items_half.set_capacity c) =
      match level_quotient 3 10 0 20 with
      | none => fault_writes
      | some level =>
        [Write.ble_dbus_set_int "Level" (lrintf ((clamp_level level).mul 100)),
          Write.veItemOwnerSet "Remaining" ((clamp_level level).mul c)] := by
    simp [mopeka_update_level_items, veItemValueInt, Items.set_capacity, sample_items_half,
      items_of, h3, h10, h0, h20]
  rw [hv, hq]
  simp only [hc, FVal.mul, lrintf, hr]

/-- C19: when `veItemValueInt` converts an item value with a conversion that
leaves integers unchanged, replacing the value of `RawValue`, `RawValueEmpty`
or `RawValueFull` by its integer conversion leaves every write of
`mopeka_update_level` unchanged (the fault writes and the published Level and
Remaining alike), and two distances with the same conversion give the same
writes, as 33.0 and 33.9 do when the conversion discards the fraction.
`Capacity`, which is read as a float, is not covered: replacing the capacity
1/2 by its integer conversion changes the published Remaining. -/
theorem update_level_reads_integers (conv : ℚ → Int) (hconv : ∀ n : Int, conv (n : ℚ) = n)
    (it : Items) :
    (∀ name ∈ ["RawValue", "RawValueEmpty", "RawValueFull"],
      mopeka_update_level_items conv (it.set name ((conv (it.value name) : Int) : ℚ)) =
        mopeka_update_level_items conv it) ∧
    (∀ d1 d2 : ℚ, conv d1 = conv d2 →
      mopeka_update_level_items conv (it.set "RawValue" d1) =
        mopeka_update_level_items conv (it.set "RawValue" d2)) ∧
    ((∀ x : ℚ, 0 ≤ x → conv x = ⌊x⌋) →
      mopeka_update_level_items conv (it.set "RawValue" 33) =
        mopeka_update_level_items conv (it.set "RawValue" (339 / 10))) ∧
    mopeka_update_level_items conv it = mopeka_update_level (it.root conv) ∧
    mopeka_update_level_items conv
        (sample_items_half.set_capacity ((conv (1 / 2) : Int) : ℚ)) ≠
      mopeka_update_level_items conv (sample_items_half.set_capacity (1 / 2)) := by
  have hsame : ∀ d1 d2 : ℚ, conv d1 = conv d2 →
      mopeka_update_level_items conv (it.set "RawValue" d1) =
        mopeka_update_level_items conv (it.set "RawValue" d2) := by
    intro d1 d2 h
    rw [update_level_items_eq, update_level_items_eq,
      root_set_same_conversion conv it "RawValue" d1 d2 h]
  refine ⟨fun name _ => ?_, hsame, fun htr => ?_, rfl, ?_⟩
  · rw [update_level_items_eq, update_level_items_eq, root_set_converted conv hconv it name]
  · apply hsame
    rw [htr 33 (by norm_num), htr (339 / 10) (by norm_num)]
    have h1 : ⌊(33 : ℚ)⌋ = 33 := by
      rw [Int.floor_eq_iff]; constructor <;> norm_num
    have h2 : ⌊(339 / 10 : ℚ)⌋ = 33 := by
      rw [Int.floor_eq_iff]; constructor <;> norm_num
    rw [h1, h2]
  · rw [update_level_items_half conv hconv, update_level_items_half conv hconv]
    intro h
    simp only [List.cons.injEq, Write.veItemOwnerSet.injEq, FVal.fin.injEq, true_and,
      and_true] at h
    have h2 : (2 * conv (1 / 2) : ℚ) = 1 := by linarith
    have h3 : 2 * conv (1 / 2) = 1 := by exact_mod_cast h2
    omega

theorem update_level_reads_integers_witness :
    (∀ n : Int, float_to_int (n : ℚ) = n) ∧
    (∀ x : ℚ, 0 ≤ x → float_to_int x = ⌊x⌋) ∧
    mopeka_update_level_items float_to_int (sample_settings.set "RawValue" 33) =
      mopeka_update_level_items float_to_int (sample_settings.set "RawValue" (339 / 10)) :=
  ⟨float_to_int_intCast, fun x hx => by unfold float_to_int; rw [if_pos hx],
    (update_level_reads_integers float_to_int float_to_int_intCast sample_settings).2.2.1
      (fun x hx => by unfold float_to_int; rw [if_pos hx])⟩
